import Mathlib

/-!
Verification development for the text-inventory extraction subsystem of the
pptx-mcp-server repository (src/pptx_mcp_server/tools/inventory.py).

The Python source is shallowly embedded: Python ints are `ℤ`, Python floats
are modelled as exact rationals `ℚ` (with `round(x, 2)` modelled as rounding
half-to-even on the rational value), Python strings are `String`, and Python
`None`-able values are `Option`.  External facilities (the PIL text
measurement calls, the OS font-directory scan) are parameters of the
embedding, collected in `MeasureEnv`.  Shape/paragraph objects of the
python-pptx library are modelled by structures carrying exactly the
attributes the inventory module reads.
-/

namespace PptxInv


/-- Python `int(q)` on a float/rational: truncation toward zero. -/
def pyInt (q : ℚ) : ℤ := if 0 ≤ q then ⌊q⌋ else -⌊-q⌋

/-- Round a rational to the nearest integer, ties to even —
the tie-breaking used by Python's built-in `round`. -/
def roundHalfEven (q : ℚ) : ℤ :=
  let f := ⌊q⌋
  if q - f < 1/2 then f
  else if q - f > 1/2 then f + 1
  else if f % 2 = 0 then f else f + 1

/-- Python `round(q, 2)`. -/
def round2 (q : ℚ) : ℚ := (roundHalfEven (q * 100) : ℚ) / 100

/-- Whitespace test used to model Python `str.strip` / `str.isspace`. -/
def isWS (c : Char) : Bool := c.isWhitespace

/-- Strip leading and trailing whitespace from a character list. -/
def stripList (l : List Char) : List Char :=
  ((l.dropWhile isWS).reverse.dropWhile isWS).reverse

/-- Python `s.strip()`. -/
def pyStrip (s : String) : String := ⟨stripList s.data⟩

/-- Split a character list on a single separator character, Python
`str.split(sep)` style: `n` separators yield `n+1` (possibly empty) parts. -/
def splitList (c : Char) : List Char → List (List Char)
  | [] => [[]]
  | a :: rest =>
    let r := splitList c rest
    if a = c then [] :: r else (a :: r.headD []) :: r.tail

/-- Python `s.split(sep)` for a single-character separator. -/
def pySplit (c : Char) (s : String) : List String :=
  (splitList c s.data).map fun l => ⟨l⟩

/-- Python `s.isdigit()` (restricted to ASCII decimal digits). -/
def pyIsDigit (s : String) : Bool := !s.data.isEmpty && s.data.all (·.isDigit)

/-- Python truthiness of an optional rational (None and 0.0 are falsy). -/
def qTruthy : Option ℚ → Bool
  | none => false
  | some v => v != 0

/-- Python truthiness of an optional integer (None and 0 are falsy). -/
def zTruthy : Option ℤ → Bool
  | none => false
  | some v => v != 0

/-- Python truthiness of an optional string (None and "" are falsy). -/
def strTruthy : Option String → Bool
  | none => false
  | some v => v != ""

/-- Python `needle in haystack` substring test. -/
def pyIn (needle haystack : String) : Bool := (haystack.splitOn needle).length > 1

/-- Value with Python-truthiness default: `a or b` for optional rationals. -/
def pyOrQ (o : Option ℚ) (d : ℚ) : ℚ :=
  match o with
  | none => d
  | some v => if v = 0 then d else v

/-- `a or b` for optional strings ("" falsy). -/
def pyOrS (o : Option String) (d : String) : String :=
  match o with
  | none => d
  | some v => if v = "" then d else v

/-- Python `s.startswith(pre)`. -/
def pyStartsWith (pre s : String) : Bool := pre.data.isPrefixOf s.data

/-- EMU (English Metric Unit) to inches: `emu / 914400.0`. -/
def emu_to_inches (emu : ℤ) : ℚ := (emu : ℚ) / 914400

/-- `inches_to_pixels`: `int(inches * dpi)` at 96 DPI. -/
def inches_to_pixels (inches : ℚ) : ℤ := pyInt (inches * 96)

/-! ## Data model of the external document objects -/

/-- An XML element (lxml node) as consumed by the style-resolution walks:
a tag, an attribute dictionary and child elements. -/
inductive XmlElem where
  | mk (tag : String) (attrs : List (String × String)) (children : List XmlElem)

def XmlElem.tag : XmlElem → String
  | .mk t _ _ => t

def XmlElem.attrs : XmlElem → List (String × String)
  | .mk _ a _ => a

def XmlElem.children : XmlElem → List XmlElem
  | .mk _ _ c => c

/-- lxml `element.iter()`: the element itself followed by all descendants,
document (preorder) order. -/
def xmlIter : XmlElem → List XmlElem
  | .mk t a c => .mk t a c :: (c.attach.map fun e => xmlIter e.1).flatten
decreasing_by
  have h := List.sizeOf_lt_of_mem e.2
  simp only [XmlElem.mk.sizeOf_spec]
  omega

/-- A styled run of a paragraph: the font attributes the module reads. -/
structure PRun where
  font_name : Option String
  font_size_pt : Option ℚ
  bold : Option Bool
  italic : Option Bool
  underline : Option Bool
  color_rgb : Option String
  theme_color : Option String
deriving DecidableEq, Repr

/-- A paragraph's line-spacing attribute: a point length or a multiple. -/
inductive PLineSpacing where
  | pts (v : ℚ)
  | mult (v : ℚ)
deriving DecidableEq, Repr

/-- Paragraph alignment values distinguished by the module. -/
inductive PAlignVal where
  | center | right | justify | left | other
deriving DecidableEq, Repr

/-- A python-pptx paragraph, carrying the attributes the module reads.
`text` is the raw (untrimmed) concatenation of the runs' text. -/
structure PPara where
  text : String
  has_bullet_elem : Bool
  level : ℤ
  alignment : Option PAlignVal
  space_before_pt : Option ℚ
  space_after_pt : Option ℚ
  runs : List PRun
  line_spacing : Option PLineSpacing
deriving DecidableEq, Repr

/-- A python-pptx text frame: paragraphs plus margin attributes (EMU).
`none` models a missing/`None` attribute. -/
structure PTextFrame where
  paragraphs : List PPara
  margin_top : Option ℤ
  margin_bottom : Option ℤ
  margin_left : Option ℤ
  margin_right : Option ℤ
deriving DecidableEq, Repr

/-- `text_frame.text`: paragraph texts joined with newlines. -/
def tfText (tf : PTextFrame) : String :=
  String.intercalate "\n" (tf.paragraphs.map (·.text))

/-- A python-pptx leaf shape, carrying the attributes the module reads.
`ph_type_raw` is `str(shape.placeholder_format.type)` when both the
placeholder format and its type are truthy, else `none`.
`master_element` is the slide master's root XML element when the
`shape.part.slide_layout.slide_master.element` chain exists. -/
structure PShape where
  text_frame : Option PTextFrame
  is_placeholder : Bool
  ph_type_raw : Option String
  left : Option ℤ
  top : Option ℤ
  width : Option ℤ
  height : Option ℤ
  master_element : Option XmlElem

/-- A placeholder of a slide layout: its raw type and its XML element. -/
structure PLayoutPlaceholder where
  ph_type_raw : Option String
  element : XmlElem

/-- A slide layout: its placeholders. -/
structure PLayout where
  placeholders : List PLayoutPlaceholder

/-- A node of a slide's shape tree: python-pptx objects with a `shapes`
attribute are group containers, everything else is a leaf shape. -/
inductive SNode where
  | leaf (s : PShape)
  | group (left top : ℤ) (children : List SNode)

/-- A slide object: its top-level shape tree, the presentation's slide
dimensions (EMU, reachable through `slide.part.package`), and its layout. -/
structure PSlide where
  shapes : List SNode
  slide_width : Option ℤ
  slide_height : Option ℤ
  layout : Option PLayout

/-- A PIL font object: `ImageFont.truetype(path, size)` or
`ImageFont.load_default()`. -/
inductive PFont where
  | truetype (path : String) (size : ℤ)
  | default
deriving DecidableEq, Repr

/-- The external text-measurement and font-lookup facilities:
`get_font_path`'s directory-scan result, whether `ImageFont.truetype`
succeeds on a path, and `draw.textlength`. -/
structure MeasureEnv where
  fontPath : String → Option String
  truetypeOk : String → ℤ → Bool
  textlength : PFont → String → ℚ

/-! ## ParagraphData -/

/-- `ParagraphData`: the per-paragraph record built by
`ParagraphData.__init__`. -/
structure ParagraphData where
  text : String
  bullet : Bool
  level : Option ℤ
  alignment : Option String
  space_before : Option ℚ
  space_after : Option ℚ
  font_name : Option String
  font_size : Option ℚ
  bold : Option Bool
  italic : Option Bool
  underline : Option Bool
  color : Option String
  theme_color : Option String
  line_spacing : Option ℚ
deriving DecidableEq, Repr

/-- `ParagraphData.__init__`, translated field by field. -/
def mkParagraphData (p : PPara) : ParagraphData :=
  let text := pyStrip p.text
  let bullet := p.has_bullet_elem
  let level : Option ℤ := if bullet then some p.level else none
  let alignment : Option String :=
    match p.alignment with
    | some .center => some "CENTER"
    | some .right => some "RIGHT"
    | some .justify => some "JUSTIFY"
    | _ => none
  let space_before : Option ℚ :=
    if qTruthy p.space_before_pt then p.space_before_pt else none
  let space_after : Option ℚ :=
    if qTruthy p.space_after_pt then p.space_after_pt else none
  let fromRun :=
    match p.runs with
    | [] => (none, none, none, none, none, none, none)
    | r :: _ =>
      ((if strTruthy r.font_name then r.font_name else none),
       (if qTruthy r.font_size_pt then r.font_size_pt else none),
       r.bold, r.italic, r.underline,
       (if strTruthy r.color_rgb then r.color_rgb else none),
       (if r.color_rgb = none then
          (if strTruthy r.theme_color then r.theme_color else none)
        else none))
  let font_size := fromRun.2.1
  let line_spacing : Option ℚ :=
    match p.line_spacing with
    | none => none
    | some (.pts v) => some (round2 v)
    | some (.mult v) => some (round2 (v * (pyOrQ font_size 12)))
  { text := text, bullet := bullet, level := level, alignment := alignment
    space_before := space_before, space_after := space_after
    font_name := fromRun.1, font_size := font_size
    bold := fromRun.2.2.1, italic := fromRun.2.2.2.1
    underline := fromRun.2.2.2.2.1
    color := fromRun.2.2.2.2.2.1, theme_color := fromRun.2.2.2.2.2.2
    line_spacing := line_spacing }

/-! ## ShapeData helpers -/

/-- `child.tag.split("}")[-1] if "}" in child.tag else child.tag`. -/
def tagLocal (tag : String) : String :=
  if pyIn "\x7d" tag then (tag.splitOn "\x7d").getLastD "" else tag

/-- `str(shape.placeholder_format.type).split(".")[-1].split(" ")[0]`. -/
def parsePlaceholderType (s : String) : String :=
  (((s.splitOn ".").getLastD "").splitOn " ").headD ""

/-- `ShapeData.get_default_font_size`: walk the slide layout's placeholder
matching the shape's placeholder type and return the first `defRPr` `sz`
divided by 100.  A `float()` parse failure raises, which the source
catches, returning `None`; attribute strings are modelled as the integer
strings appearing in OOXML, parsed with `String.toInt?`. -/
def get_default_font_size (shape : PShape) (layout : PLayout) : Option ℚ :=
  match layout.placeholders.find? (fun lp => lp.ph_type_raw = shape.ph_type_raw) with
  | none => none
  | some lp =>
    match (xmlIter lp.element).findSome? (fun el =>
        if pyIn "defRPr" el.tag then
          match el.attrs.lookup "sz" with
          | some sz => if sz ≠ "" then some sz else none
          | none => none
        else none) with
    | some sz => (sz.toInt?).map (fun v => (v : ℚ) / 100)
    | none => none

/-- `ShapeData._get_default_font_size`: look up `titleStyle`/`bodyStyle`
in the slide master element and return its first `sz` divided (floor) by
100, defaulting to 14 on any failure. -/
def shapeMasterDefaultFontSize (placeholder_type : Option String)
    (master : Option XmlElem) : ℤ :=
  match master with
  | none => 14
  | some m =>
    let style_name :=
      match placeholder_type with
      | some t => if t ≠ "" ∧ pyIn "TITLE" t then "titleStyle" else "bodyStyle"
      | none => "bodyStyle"
    match ((xmlIter m).filter (fun c => tagLocal c.tag = style_name)).findSome?
        (fun c => (xmlIter c).findSome? (fun el => el.attrs.lookup "sz")) with
    | some sz =>
      match sz.toInt? with
      | some v => Int.fdiv v 100
      | none => 14
    | none => 14

/-- `ShapeData._get_usable_dimensions`: usable width/height in pixels after
subtracting margins (defaults 0.05in top/bottom, 0.1in left/right when the
margin attribute is missing or zero). -/
def _get_usable_dimensions (width height : ℚ) (tf : PTextFrame) : ℤ × ℤ :=
  let mtop := if zTruthy tf.margin_top then emu_to_inches (tf.margin_top.getD 0) else 1/20
  let mbot := if zTruthy tf.margin_bottom then emu_to_inches (tf.margin_bottom.getD 0) else 1/20
  let mleft := if zTruthy tf.margin_left then emu_to_inches (tf.margin_left.getD 0) else 1/10
  let mright := if zTruthy tf.margin_right then emu_to_inches (tf.margin_right.getD 0) else 1/10
  (inches_to_pixels (width - mleft - mright), inches_to_pixels (height - mtop - mbot))

/-- The loop body of `_wrap_text_line`: extend the current line with the
word when it still fits, else flush the current line and start a new one. -/
def wrapStep (env : MeasureEnv) (font : PFont) (max_width_px : ℤ)
    (acc : List String × String) (word : String) : List String × String :=
  let current_line := acc.2
  let test_line := current_line ++ (if current_line ≠ "" then " " else "") ++ word
  if env.textlength font test_line ≤ (max_width_px : ℚ) then (acc.1, test_line)
  else if current_line ≠ "" then (acc.1 ++ [current_line], word)
  else (acc.1, word)

/-- `ShapeData._wrap_text_line`: greedy word-wrap of one logical line at
the usable pixel width, measured by `draw.textlength`. -/
def _wrap_text_line (env : MeasureEnv) (line : String) (max_width_px : ℤ)
    (font : PFont) : List String :=
  if line = "" then [""]
  else if env.textlength font line ≤ (max_width_px : ℚ) then [line]
  else
    let words := pySplit ' ' line
    let st := words.foldl (wrapStep env font max_width_px) ([], "")
    if st.2 ≠ "" then st.1 ++ [st.2] else st.1

/-- Font resolution in `_estimate_frame_overflow`: `get_font_path` then
`ImageFont.truetype`, falling back to `ImageFont.load_default()` when the
path is missing or loading raises. -/
def resolveFont (fontPath : String → Option String) (truetypeOk : String → ℤ → Bool)
    (font_name : String) (font_size : ℤ) : PFont :=
  match fontPath font_name with
  | some p => if truetypeOk p font_size then .truetype p font_size else .default
  | none => .default

/-- `all_wrapped_lines` of one paragraph: split the raw paragraph text on
explicit newlines and wrap each logical line. -/
def paraWrappedLines (env : MeasureEnv) (p : PPara) (uw : ℤ) (font : PFont) : List String :=
  (pySplit '\n' p.text).flatMap (fun line => _wrap_text_line env line uw font)

/-- One iteration of the paragraph loop of `_estimate_frame_overflow`:
blank paragraphs are skipped, otherwise the paragraph's wrapped lines times
its line height plus its spacing are accumulated (space-before only from
the second paragraph on). -/
def estStep (env : MeasureEnv) (uw : ℤ) (dfs : ℤ) (acc : ℚ) (item : ℕ × PPara) : ℚ :=
  let para := item.2
  if pyStrip para.text = "" then acc
  else
    let pd := mkParagraphData para
    let font_name := pyOrS pd.font_name "Arial"
    let font_size := pyInt (pyOrQ pd.font_size (dfs : ℚ))
    let font := resolveFont env.fontPath env.truetypeOk font_name font_size
    let all_wrapped_lines := paraWrappedLines env para uw font
    if all_wrapped_lines ≠ [] then
      let line_height_px : ℚ :=
        if qTruthy pd.line_spacing then (pd.line_spacing.getD 0) * 96 / 72
        else (font_size : ℚ) * 96 / 72
      let acc' := if 0 < item.1 ∧ qTruthy pd.space_before
        then acc + (pd.space_before.getD 0) * 96 / 72 else acc
      let acc'' := acc' + (all_wrapped_lines.length : ℚ) * line_height_px
      if qTruthy pd.space_after then acc'' + (pd.space_after.getD 0) * 96 / 72 else acc''
    else acc

/-- `total_height_px` accumulated over the enumerated paragraph list. -/
def total_height_px (env : MeasureEnv) (uw dfs : ℤ) (paras : List PPara) : ℚ :=
  paras.enum.foldl (estStep env uw dfs) 0

/-- `ShapeData._estimate_frame_overflow`: the resulting
`frame_overflow_bottom` value. -/
def _estimate_frame_overflow (env : MeasureEnv) (shape : PShape)
    (width height : ℚ) (placeholder_type : Option String) : Option ℚ :=
  match shape.text_frame with
  | none => none
  | some tf =>
    if tf.paragraphs = [] then none
    else
      let ud := _get_usable_dimensions width height tf
      if ud.1 ≤ 0 ∨ ud.2 ≤ 0 then none
      else
        let dfs := shapeMasterDefaultFontSize placeholder_type shape.master_element
        let total := total_height_px env ud.1 dfs tf.paragraphs
        if total > (ud.2 : ℚ) then
          let overflow_inches := round2 ((total - (ud.2 : ℚ)) / 96)
          if overflow_inches > 1/20 then some overflow_inches else none
        else none

/-- `ShapeData._calculate_slide_overflow`: per-edge slide overflow
(right, bottom), each recorded only when the rounded excess exceeds
0.01 inch; nothing is recorded when slide dimensions are unknown. -/
def _calculate_slide_overflow (left_emu top_emu width_emu height_emu : ℤ)
    (slide_width_emu slide_height_emu : Option ℤ) : Option ℚ × Option ℚ :=
  match slide_width_emu, slide_height_emu with
  | some sw, some sh =>
    let r := if left_emu + width_emu > sw then
        let oi := round2 (emu_to_inches (left_emu + width_emu - sw))
        if oi > 1/100 then some oi else none
      else none
    let b := if top_emu + height_emu > sh then
        let oi := round2 (emu_to_inches (top_emu + height_emu - sh))
        if oi > 1/100 then some oi else none
      else none
    (r, b)
  | _, _ => (none, none)

/-- `ShapeData._detect_bullet_issues`: a single warning when some
paragraph's trimmed text starts with a manual bullet glyph and a space. -/
def _detect_bullet_issues (shape : PShape) : List String :=
  match shape.text_frame with
  | none => []
  | some tf =>
    if tf.paragraphs = [] then []
    else if tf.paragraphs.any (fun p =>
        let t := pyStrip p.text
        (t != "") && ["•", "●", "○"].any (fun sym => pyStartsWith (sym ++ " ") t))
    then ["manual_bullet_symbol: use proper bullet formatting"]
    else []

/-! ## ShapeData -/

/-- The record built by `ShapeData.__init__` (the `shape` handle plus all
derived fields; `overlapping_shapes` models the insertion-ordered dict). -/
structure ShapeData where
  shape : PShape
  shape_id : String
  slide_width_emu : Option ℤ
  slide_height_emu : Option ℤ
  placeholder_type : Option String
  default_font_size : Option ℚ
  left : ℚ
  top : ℚ
  width : ℚ
  height : ℚ
  left_emu : ℤ
  top_emu : ℤ
  width_emu : ℤ
  height_emu : ℤ
  frame_overflow_bottom : Option ℚ
  slide_overflow_right : Option ℚ
  slide_overflow_bottom : Option ℚ
  overlapping_shapes : List (String × ℚ)
  warnings : List String

/-- `ShapeData.get_slide_dimensions` (the `slide.part.package` walk;
failures are modelled by absent dimensions). -/
def get_slide_dimensions (slide : PSlide) : Option ℤ × Option ℤ :=
  (slide.slide_width, slide.slide_height)

/-- `ShapeData.__init__`. -/
def mkShapeData (env : MeasureEnv) (shape : PShape)
    (absolute_left absolute_top : Option ℤ) (slide : Option PSlide) : ShapeData :=
  let dims := match slide with
    | some sl => get_slide_dimensions sl
    | none => (none, none)
  let pt_and_dfs : Option String × Option ℚ :=
    if shape.is_placeholder ∧ strTruthy shape.ph_type_raw then
      (some (parsePlaceholderType (shape.ph_type_raw.getD "")),
       match slide with
       | some sl =>
         match sl.layout with
         | some lay => get_default_font_size shape lay
         | none => none
       | none => none)
    else (none, none)
  let left_emu := absolute_left.getD (shape.left.getD 0)
  let top_emu := absolute_top.getD (shape.top.getD 0)
  let width_emu := shape.width.getD 0
  let height_emu := shape.height.getD 0
  let width := round2 (emu_to_inches width_emu)
  let height := round2 (emu_to_inches height_emu)
  let so := _calculate_slide_overflow left_emu top_emu width_emu height_emu dims.1 dims.2
  { shape := shape
    shape_id := ""
    slide_width_emu := dims.1
    slide_height_emu := dims.2
    placeholder_type := pt_and_dfs.1
    default_font_size := pt_and_dfs.2
    left := round2 (emu_to_inches left_emu)
    top := round2 (emu_to_inches top_emu)
    width := width
    height := height
    left_emu := left_emu
    top_emu := top_emu
    width_emu := width_emu
    height_emu := height_emu
    frame_overflow_bottom := _estimate_frame_overflow env shape width height pt_and_dfs.1
    slide_overflow_right := so.1
    slide_overflow_bottom := so.2
    overlapping_shapes := []
    warnings := _detect_bullet_issues shape }

/-- The `ShapeData.paragraphs` property: `ParagraphData` for every
non-blank paragraph of the shape's text frame. -/
def ShapeData.paragraphs (sd : ShapeData) : List ParagraphData :=
  match sd.shape.text_frame with
  | none => []
  | some tf => (tf.paragraphs.filter (fun p => pyStrip p.text ≠ "")).map mkParagraphData

/-- The `ShapeData.has_any_issues` property. -/
def has_any_issues (sd : ShapeData) : Bool :=
  sd.frame_overflow_bottom.isSome || sd.slide_overflow_right.isSome ||
  sd.slide_overflow_bottom.isSome || !sd.overlapping_shapes.isEmpty ||
  !sd.warnings.isEmpty

/-! ## JSON serialization -/

/-- A JSON value (Python dicts as insertion-ordered association lists). -/
inductive Json where
  | str (v : String)
  | num (v : ℚ)
  | int (v : ℤ)
  | bool (v : Bool)
  | arr (items : List Json)
  | obj (fields : List (String × Json))

/-- `ParagraphData.to_dict`: fields are omitted per the source's
`None`/truthiness tests. -/
def ParagraphData.to_dict (pd : ParagraphData) : Json :=
  .obj ([("text", Json.str pd.text)]
    ++ (if pd.bullet then [("bullet", Json.bool pd.bullet)] else [])
    ++ (match pd.level with | some v => [("level", Json.int v)] | none => [])
    ++ (if strTruthy pd.alignment then [("alignment", Json.str (pd.alignment.getD ""))] else [])
    ++ (match pd.space_before with | some v => [("space_before", Json.num v)] | none => [])
    ++ (match pd.space_after with | some v => [("space_after", Json.num v)] | none => [])
    ++ (if strTruthy pd.font_name then [("font_name", Json.str (pd.font_name.getD ""))] else [])
    ++ (match pd.font_size with | some v => [("font_size", Json.num v)] | none => [])
    ++ (match pd.bold with | some v => [("bold", Json.bool v)] | none => [])
    ++ (match pd.italic with | some v => [("italic", Json.bool v)] | none => [])
    ++ (match pd.underline with | some v => [("underline", Json.bool v)] | none => [])
    ++ (if strTruthy pd.color then [("color", Json.str (pd.color.getD ""))] else [])
    ++ (if strTruthy pd.theme_color then [("theme_color", Json.str (pd.theme_color.getD ""))] else [])
    ++ (match pd.line_spacing with | some v => [("line_spacing", Json.num v)] | none => []))

/-- The serialized `paragraphs` list of `ShapeData.to_dict`. -/
def ShapeData.serializedParagraphs (sd : ShapeData) : List Json :=
  sd.paragraphs.map ParagraphData.to_dict

/-- `ShapeData.to_dict`. -/
def ShapeData.to_dict (sd : ShapeData) : Json :=
  let overflow_data :=
    (if sd.frame_overflow_bottom.isSome then
      [("frame", Json.obj [("overflow_bottom", Json.num (sd.frame_overflow_bottom.getD 0))])]
     else [])
    ++ (let slide_overflow :=
          (match sd.slide_overflow_right with
           | some v => [("overflow_right", Json.num v)] | none => [])
          ++ (match sd.slide_overflow_bottom with
              | some v => [("overflow_bottom", Json.num v)] | none => [])
        if !slide_overflow.isEmpty then [("slide", Json.obj slide_overflow)] else [])
  .obj ([("left", Json.num sd.left), ("top", Json.num sd.top),
         ("width", Json.num sd.width), ("height", Json.num sd.height)]
    ++ (if strTruthy sd.placeholder_type then
          [("placeholder_type", Json.str (sd.placeholder_type.getD ""))] else [])
    ++ (if qTruthy sd.default_font_size then
          [("default_font_size", Json.num (sd.default_font_size.getD 0))] else [])
    ++ (if !overflow_data.isEmpty then [("overflow", Json.obj overflow_data)] else [])
    ++ (if !sd.overlapping_shapes.isEmpty then
          [("overlap", Json.obj [("overlapping_shapes",
            Json.obj (sd.overlapping_shapes.map (fun kv => (kv.1, Json.num kv.2))))])]
        else [])
    ++ (if !sd.warnings.isEmpty then [("warnings", Json.arr (sd.warnings.map Json.str))] else [])
    ++ [("paragraphs", Json.arr sd.serializedParagraphs)])

/-! ## Shape filter, geometry resolver, layout sorter, overlap detector -/

/-- `is_valid_shape`: does the shape carry meaningful text content. -/
def is_valid_shape (shape : PShape) : Bool :=
  match shape.text_frame with
  | none => false
  | some tf =>
    let text := pyStrip (tfText tf)
    if text = "" then false
    else if shape.is_placeholder ∧ strTruthy shape.ph_type_raw then
      let placeholder_type := parsePlaceholderType (shape.ph_type_raw.getD "")
      if placeholder_type = "SLIDE_NUMBER" then false
      else if placeholder_type = "FOOTER" ∧ pyIsDigit text then false
      else true
    else true

/-- A shape with its absolute position (EMU) on the slide. -/
structure ShapeWithPosition where
  shape : PShape
  absolute_left : ℤ
  absolute_top : ℤ

/-- `collect_shapes_with_absolute_positions`: recursive walk of the shape
tree accumulating group offsets, emitting qualifying leaf shapes. -/
def collect_shapes_with_absolute_positions :
    SNode → (parent_left : ℤ) → (parent_top : ℤ) → List ShapeWithPosition
  | .group gleft gtop children, parent_left, parent_top =>
    (children.attach.map fun child =>
      collect_shapes_with_absolute_positions child.1
        (parent_left + gleft) (parent_top + gtop)).flatten
  | .leaf s, parent_left, parent_top =>
    if is_valid_shape s then
      [{ shape := s, absolute_left := parent_left + (s.left.getD 0),
         absolute_top := parent_top + (s.top.getD 0) }]
    else []
decreasing_by
  have h := List.sizeOf_lt_of_mem child.2
  simp only [SNode.group.sizeOf_spec]
  omega

/-- The `(s.top, s.left)` lexicographic comparison used as the sort key. -/
def keyLe (a b : ShapeData) : Bool := a.top < b.top || (a.top = b.top && a.left ≤ b.left)

/-- Comparison by `s.left` used for re-sorting a row. -/
def leftLe (a b : ShapeData) : Bool := a.left ≤ b.left

/-- `sort_shapes_by_position`: stable sort by `(top, left)`, then a single
pass grouping into rows (anchor top within 0.5in), each row re-sorted by
`left`. -/
def rowStep (acc : List ShapeData × List ShapeData × ℚ) (shape : ShapeData) :
    List ShapeData × List ShapeData × ℚ :=
  if |shape.top - acc.2.2| ≤ 1/2 then (acc.1, acc.2.1 ++ [shape], acc.2.2)
  else (acc.1 ++ (acc.2.1.mergeSort leftLe), [shape], shape.top)

def sort_shapes_by_position (shapes : List ShapeData) : List ShapeData :=
  if shapes.isEmpty then shapes
  else
    match shapes.mergeSort keyLe with
    | [] => []
    | s0 :: rest =>
      let st := rest.foldl rowStep ([], [s0], s0.top)
      st.1 ++ (st.2.1.mergeSort leftLe)

/-- `calculate_overlap`: axis-aligned intersection of two rectangles,
reporting `(true, area rounded to 2 decimals)` when both intersection
dimensions exceed the tolerance. -/
def calculate_overlap (rect1 rect2 : ℚ × ℚ × ℚ × ℚ) (tolerance : ℚ := 1/20) :
    Bool × ℚ :=
  let (left1, top1, w1, h1) := rect1
  let (left2, top2, w2, h2) := rect2
  let overlap_width := min (left1 + w1) (left2 + w2) - max left1 left2
  let overlap_height := min (top1 + h1) (top2 + h2) - max top1 top2
  if overlap_width > tolerance ∧ overlap_height > tolerance then
    (true, round2 (overlap_width * overlap_height))
  else (false, 0)

/-- Python dict assignment `m[k] = v`: replace in place if the key exists,
else append. -/
def dictSet (m : List (String × ℚ)) (k : String) (v : ℚ) : List (String × ℚ) :=
  if (m.lookup k).isSome then m.map (fun kv => if kv.1 = k then (k, v) else kv)
  else m ++ [(k, v)]

/-- The body of `detect_overlaps` for one index pair `(i, j)`: update both
shapes' `overlapping_shapes` dicts when they overlap. -/
def overlapStep (shapes : List ShapeData) (i j : ℕ) : List ShapeData :=
  match shapes[i]?, shapes[j]? with
  | some shape1, some shape2 =>
    let ov := calculate_overlap (shape1.left, shape1.top, shape1.width, shape1.height)
      (shape2.left, shape2.top, shape2.width, shape2.height)
    if ov.1 then
      (shapes.set i { shape1 with
          overlapping_shapes := dictSet shape1.overlapping_shapes shape2.shape_id ov.2 }).set j
        { shape2 with
          overlapping_shapes := dictSet shape2.overlapping_shapes shape1.shape_id ov.2 }
    else shapes
  | _, _ => shapes

/-- `detect_overlaps`: all unordered index pairs `i < j`, in loop order. -/
def detect_overlaps (shapes : List ShapeData) : List ShapeData :=
  let n := shapes.length
  (List.range n).foldl (fun acc i =>
    (List.range' (i + 1) (n - (i + 1))).foldl (fun acc2 j => overlapStep acc2 i j) acc) shapes

/-! ## Inventory assembler -/

/-- The `shapes_with_positions` list gathered for one slide. -/
def slideShapesWithPositions (slide : PSlide) : List ShapeWithPosition :=
  slide.shapes.flatMap (fun sh => collect_shapes_with_absolute_positions sh 0 0)

/-- The positional-id assignment loop of `extract_text_inventory`:
`shape_data.shape_id = f"shape-{idx}"` over the sorted list. -/
def assignIds (l : List ShapeData) : List ShapeData :=
  l.enum.map (fun p => { p.2 with shape_id := "shape-" ++ toString p.1 })

/-- The ShapeData records built for one slide's collected shapes. -/
def slideShapeDataList (env : MeasureEnv) (slide : PSlide) : List ShapeData :=
  (slideShapesWithPositions slide).map (fun swp =>
    mkShapeData env swp.shape (some swp.absolute_left) (some swp.absolute_top) (some slide))

/-- The per-slide body of `extract_text_inventory` after the
`shapes_with_positions` non-emptiness check: build ShapeData records, sort,
assign positional ids, run overlap detection for ≥2 shapes, and apply the
`issues_only` filter. -/
def processSlide (env : MeasureEnv) (slide : PSlide) (issues_only : Bool) :
    List ShapeData :=
  let sorted1 := assignIds (sort_shapes_by_position (slideShapeDataList env slide))
  let sorted2 := if sorted1.length > 1 then detect_overlaps sorted1 else sorted1
  if issues_only then sorted2.filter has_any_issues else sorted2

/-- One iteration of the slide loop of `extract_text_inventory`. -/
def extractStep (env : MeasureEnv) (issues_only : Bool)
    (inventory : List (String × List ShapeData)) (item : ℕ × PSlide) :
    List (String × List ShapeData) :=
  if (slideShapesWithPositions item.2).isEmpty then inventory
  else
    let sorted3 := processSlide env item.2 issues_only
    if sorted3.isEmpty then inventory
    else inventory ++ [("slide-" ++ toString item.1, sorted3)]

/-- `extract_text_inventory`: the inventory as an insertion-ordered mapping
from slide id to the slide's shape records (each carrying its shape id). -/
def extract_text_inventory (env : MeasureEnv) (slides : List PSlide)
    (issues_only : Bool) : List (String × List ShapeData) :=
  slides.enum.foldl (extractStep env issues_only) []

/-! ## Exception propagation

The same translation of the overflow-estimation call chain, with the
external `draw.textlength` facility allowed to raise.  The source wraps
only `ImageFont.truetype` in `try/except`; no `try` protects
`_wrap_text_line`, `_estimate_frame_overflow`, `ShapeData.__init__` or the
per-shape list comprehension in `extract_text_inventory`, so a measurement
exception propagates out of the whole extraction call.  `Except` threads
that propagation. -/

/-- External facilities with a fallible `draw.textlength`. -/
structure MeasureEnvE where
  fontPath : String → Option String
  truetypeOk : String → ℤ → Bool
  textlength : PFont → String → Except String ℚ

/-- `_wrap_text_line` under a fallible measurement facility. -/
def wrapTextLineE (env : MeasureEnvE) (line : String) (max_width_px : ℤ)
    (font : PFont) : Except String (List String) := do
  if line = "" then return [""]
  else
    let wl ← env.textlength font line
    if wl ≤ (max_width_px : ℚ) then return [line]
    else
      let words := pySplit ' ' line
      let st ← words.foldlM (fun (acc : List String × String) word => do
        let current_line := acc.2
        let test_line := current_line ++ (if current_line ≠ "" then " " else "") ++ word
        let tl ← env.textlength font test_line
        if tl ≤ (max_width_px : ℚ) then return (acc.1, test_line)
        else if current_line ≠ "" then return (acc.1 ++ [current_line], word)
        else return (acc.1, word)) (([], "") : List String × String)
      if st.2 ≠ "" then return st.1 ++ [st.2] else return st.1

/-- `all_wrapped_lines` under a fallible measurement facility. -/
def paraWrappedLinesE (env : MeasureEnvE) (p : PPara) (uw : ℤ) (font : PFont) :
    Except String (List String) := do
  return (← (pySplit '\n' p.text).mapM (fun line => wrapTextLineE env line uw font)).flatten

/-- The paragraph-loop step under a fallible measurement facility. -/
def estStepE (env : MeasureEnvE) (uw : ℤ) (dfs : ℤ) (acc : ℚ) (item : ℕ × PPara) :
    Except String ℚ := do
  let para := item.2
  if pyStrip para.text = "" then return acc
  else
    let pd := mkParagraphData para
    let font_name := pyOrS pd.font_name "Arial"
    let font_size := pyInt (pyOrQ pd.font_size (dfs : ℚ))
    let font := resolveFont env.fontPath env.truetypeOk font_name font_size
    let all_wrapped_lines ← paraWrappedLinesE env para uw font
    if all_wrapped_lines ≠ [] then
      let line_height_px : ℚ :=
        if qTruthy pd.line_spacing then (pd.line_spacing.getD 0) * 96 / 72
        else (font_size : ℚ) * 96 / 72
      let acc' := if 0 < item.1 ∧ qTruthy pd.space_before
        then acc + (pd.space_before.getD 0) * 96 / 72 else acc
      let acc'' := acc' + (all_wrapped_lines.length : ℚ) * line_height_px
      if qTruthy pd.space_after then return acc'' + (pd.space_after.getD 0) * 96 / 72
      else return acc''
    else return acc

/-- `_estimate_frame_overflow` under a fallible measurement facility. -/
def estimateFrameOverflowE (env : MeasureEnvE) (shape : PShape)
    (width height : ℚ) (placeholder_type : Option String) : Except String (Option ℚ) := do
  match shape.text_frame with
  | none => return none
  | some tf =>
    if tf.paragraphs = [] then return none
    else
      let ud := _get_usable_dimensions width height tf
      if ud.1 ≤ 0 ∨ ud.2 ≤ 0 then return none
      else
        let dfs := shapeMasterDefaultFontSize placeholder_type shape.master_element
        let total ← tf.paragraphs.enum.foldlM (estStepE env ud.1 dfs) (0 : ℚ)
        if total > (ud.2 : ℚ) then
          let overflow_inches := round2 ((total - (ud.2 : ℚ)) / 96)
          if overflow_inches > 1/20 then return some overflow_inches else return none
        else return none

/-- `ShapeData.__init__` under a fallible measurement facility. -/
def mkShapeDataE (env : MeasureEnvE) (shape : PShape)
    (absolute_left absolute_top : Option ℤ) (slide : Option PSlide) :
    Except String ShapeData := do
  let dims := match slide with
    | some sl => get_slide_dimensions sl
    | none => (none, none)
  let pt_and_dfs : Option String × Option ℚ :=
    if shape.is_placeholder ∧ strTruthy shape.ph_type_raw then
      (some (parsePlaceholderType (shape.ph_type_raw.getD "")),
       match slide with
       | some sl =>
         match sl.layout with
         | some lay => get_default_font_size shape lay
         | none => none
       | none => none)
    else (none, none)
  let left_emu := absolute_left.getD (shape.left.getD 0)
  let top_emu := absolute_top.getD (shape.top.getD 0)
  let width_emu := shape.width.getD 0
  let height_emu := shape.height.getD 0
  let width := round2 (emu_to_inches width_emu)
  let height := round2 (emu_to_inches height_emu)
  let fob ← estimateFrameOverflowE env shape width height pt_and_dfs.1
  let so := _calculate_slide_overflow left_emu top_emu width_emu height_emu dims.1 dims.2
  return { shape := shape
           shape_id := ""
           slide_width_emu := dims.1
           slide_height_emu := dims.2
           placeholder_type := pt_and_dfs.1
           default_font_size := pt_and_dfs.2
           left := round2 (emu_to_inches left_emu)
           top := round2 (emu_to_inches top_emu)
           width := width
           height := height
           left_emu := left_emu
           top_emu := top_emu
           width_emu := width_emu
           height_emu := height_emu
           frame_overflow_bottom := fob
           slide_overflow_right := so.1
           slide_overflow_bottom := so.2
           overlapping_shapes := []
           warnings := _detect_bullet_issues shape }

/-- One iteration of the slide loop under a fallible measurement
facility: the per-shape constructions run inside a list comprehension, so
the first exception aborts the iteration. -/
def extractStepE (env : MeasureEnvE) (issues_only : Bool)
    (inventory : List (String × List ShapeData)) (item : ℕ × PSlide) :
    Except String (List (String × List ShapeData)) := do
  let slide := item.2
  let shapes_with_positions :=
    slide.shapes.flatMap (fun sh => collect_shapes_with_absolute_positions sh 0 0)
  if shapes_with_positions.isEmpty then return inventory
  else
    let shape_data_list ← shapes_with_positions.mapM (fun swp =>
      mkShapeDataE env swp.shape (some swp.absolute_left) (some swp.absolute_top) (some slide))
    let sorted0 := sort_shapes_by_position shape_data_list
    let sorted1 := sorted0.enum.map (fun p => { p.2 with shape_id := "shape-" ++ toString p.1 })
    let sorted2 := if sorted1.length > 1 then detect_overlaps sorted1 else sorted1
    let sorted3 := if issues_only then sorted2.filter has_any_issues else sorted2
    if sorted3.isEmpty then return inventory
    else return inventory ++ [("slide-" ++ toString item.1, sorted3)]

/-- `extract_text_inventory` under a fallible measurement facility: the
first exception aborts the whole call. -/
def extractTextInventoryE (env : MeasureEnvE) (slides : List PSlide)
    (issues_only : Bool) : Except String (List (String × List ShapeData)) :=
  slides.enum.foldlM (extractStepE env issues_only) []

/-! ## Concrete fixtures used by witnesses and counterexamples -/

/-- A concrete total measurement environment: no font files are found
(every paragraph measures with the default font) and a string measures one
pixel per character. -/
def envFix : MeasureEnv :=
  { fontPath := fun _ => none, truetypeOk := fun _ _ => false
    textlength := fun _ s => (s.length : ℚ) }

/-- A plain paragraph with the given raw text and no explicit styling. -/
def paraFix (t : String) : PPara :=
  { text := t, has_bullet_elem := false, level := 0, alignment := none
    space_before_pt := none, space_after_pt := none, runs := [], line_spacing := none }

/-- A one-paragraph text frame with default margins. -/
def tfFix (t : String) : PTextFrame :=
  { paragraphs := [paraFix t], margin_top := none, margin_bottom := none
    margin_left := none, margin_right := none }

/-- A plain non-placeholder leaf shape at the given EMU geometry. -/
def leafFix (t : String) (l tp w h : ℤ) : PShape :=
  { text_frame := some (tfFix t), is_placeholder := false, ph_type_raw := none
    left := some l, top := some tp, width := some w, height := some h
    master_element := none }

/-! ## C10: blank paragraphs omitted from the serialized list -/

/-- Lookup of a key in a serialized JSON object. -/
def jsonLookup (j : Json) (k : String) : Option Json :=
  match j with
  | .obj fields => fields.lookup k
  | _ => none

/-- Fixture for the C10 witness: a text frame with a whitespace-only
paragraph followed by the paragraph " hi ". -/
def tfW : PTextFrame :=
  { paragraphs := [paraFix "  ", paraFix " hi "], margin_top := none
    margin_bottom := none, margin_left := none, margin_right := none }

/-- Fixture for the C10 witness: a ShapeData over `tfW`. -/
def sdW : ShapeData :=
  { shape := { text_frame := some tfW, is_placeholder := false, ph_type_raw := none
               left := none, top := none, width := none, height := none
               master_element := none }
    shape_id := "shape-0", slide_width_emu := none, slide_height_emu := none
    placeholder_type := none, default_font_size := none
    left := 0, top := 0, width := 0, height := 0
    left_emu := 0, top_emu := 0, width_emu := 0, height_emu := 0
    frame_overflow_bottom := none, slide_overflow_right := none
    slide_overflow_bottom := none, overlapping_shapes := [], warnings := [] }

/-! ## C3: layout sorter

The spec-side description of the sorter (§4.3 of the spec): stable sort by
`(top, left)`, then group into rows — a record joins the current row when
its top differs from the row's anchor top (its first record) by at most
0.5 inch — and concatenate the rows, each re-sorted by `left`.  These
definitions follow the spec's words; the claim is that
`sort_shapes_by_position` computes exactly this. -/

/-- Row grouping per the spec's words, carrying the current row's anchor
top and contents. -/
def rowsAux (anchorTop : ℚ) (cur : List ShapeData) :
    List ShapeData → List (List ShapeData)
  | [] => [cur]
  | s :: rest =>
    if |s.top - anchorTop| ≤ 1/2 then rowsAux anchorTop (cur ++ [s]) rest
    else cur :: rowsAux s.top [s] rest

/-- The rows of a (sorted) record list, per the spec's words. -/
def rowsOf : List ShapeData → List (List ShapeData)
  | [] => []
  | s :: rest => rowsAux s.top [s] rest

/-- The layout sorter as the spec states it: sort by `(top, left)`, group
into rows, re-sort each row by `left`, concatenate rows in formation
order. -/
def layout_sorter_spec (shapes : List ShapeData) : List ShapeData :=
  ((rowsOf (shapes.mergeSort keyLe)).map (fun row => row.mergeSort leftLe)).flatten

/-- A ShapeData with its overlap dict cleared: `detect_overlaps` changes
nothing but the overlap dicts. -/
def eraseOv (sd : ShapeData) : ShapeData := { sd with overlapping_shapes := [] }

/-! ## C4: the shape filter -/

/-- The claim-side notion: `s` is a placeholder whose parsed placeholder
type string is `t`. -/
def isPlaceholderOfType (s : PShape) (t : String) : Prop :=
  s.is_placeholder = true ∧ strTruthy s.ph_type_raw = true ∧
    parsePlaceholderType (s.ph_type_raw.getD "") = t

instance (s : PShape) (t : String) : Decidable (isPlaceholderOfType s t) := by
  unfold isPlaceholderOfType
  infer_instance

/-! ## A concrete three-shape presentation, evaluated end to end

Used by several witnesses: three stacked 1in×1in text boxes at tops 0in,
1in, 2in on a 10in×7.5in slide; the first and third carry a manual bullet
glyph (warning), the middle one is clean. -/

def shW0 : PShape := leafFix "• a" 0 0 914400 914400

def shW1 : PShape := leafFix "b" 0 914400 914400 914400

def shW2 : PShape := leafFix "• c" 0 1828800 914400 914400

def slideW3 : PSlide :=
  { shapes := [.leaf shW0, .leaf shW1, .leaf shW2]
    slide_width := some 9144000, slide_height := some 6858000, layout := none }

/-- The ShapeData literal produced for the fixture shapes. -/
def mkSdW (sh : PShape) (t : ℚ) (te : ℤ) (idst : String) (w : List String) : ShapeData :=
  { shape := sh, shape_id := idst
    slide_width_emu := some 9144000, slide_height_emu := some 6858000
    placeholder_type := none, default_font_size := none
    left := 0, top := t, width := 1, height := 1
    left_emu := 0, top_emu := te, width_emu := 914400, height_emu := 914400
    frame_overflow_bottom := none, slide_overflow_right := none
    slide_overflow_bottom := none, overlapping_shapes := [], warnings := w }

def warnBul : List String := ["manual_bullet_symbol: use proper bullet formatting"]

/-! ## C5: the overflow estimator's height accumulation -/

/-- The effective font size of a paragraph in the estimator:
`int(para_data.font_size or default_font_size)`. -/
def paraFontSize (dfs : ℤ) (pd : ParagraphData) : ℤ := pyInt (pyOrQ pd.font_size (dfs : ℚ))

/-- The font the estimator resolves for a paragraph. -/
def paraFont (env : MeasureEnv) (dfs : ℤ) (pd : ParagraphData) : PFont :=
  resolveFont env.fontPath env.truetypeOk (pyOrS pd.font_name "Arial") (paraFontSize dfs pd)

/-- The claim's line height: the explicit line spacing when set, else the
font size, both converted to pixels at 96/72. -/
def lineHeightPx (pd : ParagraphData) (font_size : ℤ) : ℚ :=
  if qTruthy pd.line_spacing then (pd.line_spacing.getD 0) * 96 / 72
  else (font_size : ℚ) * 96 / 72

/-- The claim's per-paragraph contribution: wrapped-line-count × line
height, plus configured space-before (skipped at paragraph index 0) and
space-after. -/
def specParaHeight (env : MeasureEnv) (uw dfs : ℤ) (item : ℕ × PPara) : ℚ :=
  let pd := mkParagraphData item.2
  ((paraWrappedLines env item.2 uw (paraFont env dfs pd)).length : ℚ) *
      lineHeightPx pd (paraFontSize dfs pd)
    + (if 0 < item.1 ∧ qTruthy pd.space_before then (pd.space_before.getD 0) * 96 / 72 else 0)
    + (if qTruthy pd.space_after then (pd.space_after.getD 0) * 96 / 72 else 0)

/-- The wrap loop's invariant: some output line has been flushed or the
current line is non-empty. -/
def wrapInv (st : List String × String) : Prop := st.1 ≠ [] ∨ st.2 ≠ ""

/-- A one-shape presentation whose only shape has a manual-bullet warning:
every inventoried shape has an issue. -/
def slideW1 : PSlide :=
  { shapes := [.leaf shW0], slide_width := some 9144000
    slide_height := some 6858000, layout := none }

/-! ## C1: exceptions during overflow estimation -/

/-- A fallible environment whose `draw.textlength` raises on the text
"BOOM" and measures one pixel per character otherwise. -/
def envBoom : MeasureEnvE :=
  { fontPath := fun _ => none, truetypeOk := fun _ _ => false
    textlength := fun _ s => if s = "BOOM" then .error "pil fail" else .ok (s.length : ℚ) }

def shBoom : PShape := leafFix "BOOM" 0 0 914400 914400

/-- A two-shape slide whose first shape's overflow estimation raises. -/
def slideBoom : PSlide :=
  { shapes := [.leaf shBoom, .leaf shW1], slide_width := some 9144000
    slide_height := some 6858000, layout := none }

/-! ## C2: the overlap detector

Proof infrastructure: the nested loop of `detect_overlaps` is rephrased as
a fold over the list of ordered index pairs, and the state after
processing a set of pairs is characterized explicitly. -/

/-- The claim's axis-aligned intersection width of two shape records'
bounding boxes. -/
def interW (s1 s2 : ShapeData) : ℚ :=
  min (s1.left + s1.width) (s2.left + s2.width) - max s1.left s2.left

/-- The claim's axis-aligned intersection height. -/
def interH (s1 s2 : ShapeData) : ℚ :=
  min (s1.top + s1.height) (s2.top + s2.height) - max s1.top s2.top

/-- The bounding-box tuple passed to `calculate_overlap`. -/
def rectOf (sd : ShapeData) : ℚ × ℚ × ℚ × ℚ := (sd.left, sd.top, sd.width, sd.height)

/-- Replace a record's overlap dict. -/
def setOv (sd : ShapeData) (m : List (String × ℚ)) : ShapeData :=
  { sd with overlapping_shapes := m }

/-- The entry the pair `p`, when processed, adds to shape `k`'s overlap
dict (if any). -/
def entryFor (l : List ShapeData) (k : ℕ) (p : ℕ × ℕ) : Option (String × ℚ) :=
  match l[p.1]?, l[p.2]? with
  | some s1, some s2 =>
    let ov := calculate_overlap (rectOf s1) (rectOf s2)
    if ov.1 then
      if p.1 = k then some (s2.shape_id, ov.2)
      else if p.2 = k then some (s1.shape_id, ov.2)
      else none
    else none
  | _, _ => none

/-- The overlap dict of shape `k` after the pairs `done` were processed. -/
def entriesFor (l : List ShapeData) (k : ℕ) (done : List (ℕ × ℕ)) : List (String × ℚ) :=
  done.filterMap (entryFor l k)

/-- The detector's state after processing the pairs `done`, starting from
records with empty overlap dicts. -/
def stateOf (l : List ShapeData) (done : List (ℕ × ℕ)) : List ShapeData :=
  l.enum.map (fun q => setOv q.2 (entriesFor l q.1 done))

/-- The ordered index pairs the nested loop iterates over, in loop order. -/
def pairList (n : ℕ) : List (ℕ × ℕ) :=
  (List.range n).flatMap (fun i => (List.range' (i + 1) (n - (i + 1))).map (fun j => (i, j)))

/-- `m[key] = v` applied to a record's overlap dict. -/
def overlapUpd (sd : ShapeData) (key : String) (v : ℚ) : ShapeData :=
  setOv sd (dictSet sd.overlapping_shapes key v)

/-- Two records forming a counterexample pair for the overlap detector:
boxes `(0,0,2,2)` and `(1,1,2,2)` inches with fresh ids and empty dicts. -/
def sdOvA : ShapeData :=
  { shape := shW0, shape_id := "shape-0"
    slide_width_emu := none, slide_height_emu := none
    placeholder_type := none, default_font_size := none
    left := 0, top := 0, width := 2, height := 2
    left_emu := 0, top_emu := 0, width_emu := 1828800, height_emu := 1828800
    frame_overflow_bottom := none, slide_overflow_right := none
    slide_overflow_bottom := none, overlapping_shapes := [], warnings := [] }

def sdOvB : ShapeData :=
  { shape := shW1, shape_id := "shape-1"
    slide_width_emu := none, slide_height_emu := none
    placeholder_type := none, default_font_size := none
    left := 1, top := 1, width := 2, height := 2
    left_emu := 914400, top_emu := 914400, width_emu := 1828800, height_emu := 1828800
    frame_overflow_bottom := none, slide_overflow_right := none
    slide_overflow_bottom := none, overlapping_shapes := [], warnings := [] }

/-- A chain of nested group containers leading from a node down to a leaf
shape, collecting each traversed group's own `(left, top)` along the way. -/
inductive GroupPath : SNode → List (ℤ × ℤ) → PShape → Prop where
  | leaf (s : PShape) : GroupPath (.leaf s) [] s
  | group (gl gt : ℤ) (children : List SNode) (c : SNode) (path : List (ℤ × ℤ))
      (s : PShape) (hc : c ∈ children) (h : GroupPath c path s) :
      GroupPath (.group gl gt children) ((gl, gt) :: path) s

/-! ## Theorems -/

/-! ## Rounding lemmas -/

theorem roundHalfEven_dist (q : ℚ) : |(roundHalfEven q : ℚ) - q| ≤ 1/2 := by
  unfold roundHalfEven
  have h0 : (⌊q⌋ : ℚ) ≤ q := Int.floor_le q
  have h1 : q < (⌊q⌋ : ℚ) + 1 := Int.lt_floor_add_one q
  by_cases hlt : q - (⌊q⌋ : ℚ) < 1/2
  · simp only [hlt, if_true]
    rw [abs_le]
    constructor <;> linarith
  · by_cases hgt : q - (⌊q⌋ : ℚ) > 1/2
    · simp only [hlt, hgt, if_false, if_true]
      rw [abs_le]
      push_cast
      constructor <;> linarith
    · have heq : q - (⌊q⌋ : ℚ) = 1/2 := by linarith
      by_cases hev : ⌊q⌋ % 2 = 0
      · simp only [hlt, hgt, hev, if_false, if_true]
        rw [abs_le]
        constructor <;> linarith
      · simp only [hlt, hgt, hev, if_false]
        rw [abs_le]
        push_cast
        constructor <;> linarith

theorem round2_dist (q : ℚ) : |round2 q - q| ≤ 1/200 := by
  have h := roundHalfEven_dist (q * 100)
  unfold round2
  have : (roundHalfEven (q * 100) : ℚ) / 100 - q = ((roundHalfEven (q * 100) : ℚ) - q * 100) / 100 := by
    ring
  rw [this, abs_div]
  rw [abs_of_pos (by norm_num : (0:ℚ) < 100)]
  linarith [abs_nonneg ((roundHalfEven (q * 100) : ℚ) - q * 100)]

/-! ## C6: slide-boundary overflow -/

/-- C6 counterexample: a shape whose right edge exceeds the slide width by
12802 EMU ≈ 0.0140 inch — beyond the claimed 0.01-inch tolerance — yet the
code records no `overflow_right`, because the source applies the tolerance
to the excess after rounding it to 2 decimals (0.01 is not > 0.01). -/
theorem c6_counterexample :
    (mkShapeData envFix (leafFix "wide" 0 0 (9144000 + 12802) 914400) none none
      (some { shapes := [], slide_width := some 9144000, slide_height := some 6858000,
              layout := none })).slide_overflow_right = none ∧
    emu_to_inches ((0 + (9144000 + 12802)) - 9144000) > 1/100 := by
  constructor
  · simp only [mkShapeData, get_slide_dimensions, leafFix, Option.getD]
    norm_num [_calculate_slide_overflow, round2, roundHalfEven, emu_to_inches]
  · norm_num [emu_to_inches]

/-- C6 (amended): `overflow_right` is recorded exactly when the right edge
exceeds the slide width AND the excess, rounded to 2 decimals, exceeds
0.01 inch (so the effective threshold is 0.015in, not 0.01in); likewise
`overflow_bottom` for the bottom edge, independently.  The recorded value
is the rounded excess in inches, which is within 0.005in (hence within the
spec's ±0.01) of the exact excess `d`. -/
theorem c6_slide_overflow_characterization (le te we he sw sh : ℤ) :
    (_calculate_slide_overflow le te we he (some sw) (some sh)).1 =
      (if le + we > sw ∧ round2 (emu_to_inches (le + we - sw)) > 1/100
       then some (round2 (emu_to_inches (le + we - sw))) else none) ∧
    (_calculate_slide_overflow le te we he (some sw) (some sh)).2 =
      (if te + he > sh ∧ round2 (emu_to_inches (te + he - sh)) > 1/100
       then some (round2 (emu_to_inches (te + he - sh))) else none) ∧
    (∀ v, (_calculate_slide_overflow le te we he (some sw) (some sh)).1 = some v →
      |v - emu_to_inches (le + we - sw)| ≤ 1/200) ∧
    (∀ v, (_calculate_slide_overflow le te we he (some sw) (some sh)).2 = some v →
      |v - emu_to_inches (te + he - sh)| ≤ 1/200) := by
  have e1 : (_calculate_slide_overflow le te we he (some sw) (some sh)).1 =
      (if le + we > sw ∧ round2 (emu_to_inches (le + we - sw)) > 1/100
       then some (round2 (emu_to_inches (le + we - sw))) else none) := by
    unfold _calculate_slide_overflow
    by_cases h1 : le + we > sw
    · by_cases h2 : round2 (emu_to_inches (le + we - sw)) > 1/100 <;> simp [h1, h2]
    · simp [h1]
  have e2 : (_calculate_slide_overflow le te we he (some sw) (some sh)).2 =
      (if te + he > sh ∧ round2 (emu_to_inches (te + he - sh)) > 1/100
       then some (round2 (emu_to_inches (te + he - sh))) else none) := by
    unfold _calculate_slide_overflow
    by_cases h1 : te + he > sh
    · by_cases h2 : round2 (emu_to_inches (te + he - sh)) > 1/100 <;> simp [h1, h2]
    · simp [h1]
  refine ⟨e1, e2, ?_, ?_⟩
  · intro v hv
    rw [e1] at hv
    by_cases hc : le + we > sw ∧ round2 (emu_to_inches (le + we - sw)) > 1/100
    · rw [if_pos hc, Option.some.injEq] at hv
      rw [← hv]
      exact round2_dist _
    · rw [if_neg hc] at hv
      exact absurd hv (by simp)
  · intro v hv
    rw [e2] at hv
    by_cases hc : te + he > sh ∧ round2 (emu_to_inches (te + he - sh)) > 1/100
    · rw [if_pos hc, Option.some.injEq] at hv
      rw [← hv]
      exact round2_dist _
    · rw [if_neg hc] at hv
      exact absurd hv (by simp)

/-- C6 witness: the amended characterization evaluated at a shape 0.02in
past the right edge of a 10in-wide slide: `overflow_right` is recorded as
0.02 and is within 0.005 of the exact excess. -/
theorem c6_witness :
    (_calculate_slide_overflow 0 0 (9144000 + 18288) 914400 (some 9144000) (some 6858000)).1 =
      some (2/100) ∧
    |(2/100 : ℚ) - emu_to_inches ((0 + (9144000 + 18288)) - 9144000)| ≤ 1/200 := by
  have h := c6_slide_overflow_characterization 0 0 (9144000 + 18288) 914400 9144000 6858000
  have hval : (_calculate_slide_overflow 0 0 (9144000 + 18288) 914400
      (some 9144000) (some 6858000)).1 = some (2/100) := by
    rw [h.1]
    norm_num [round2, roundHalfEven, emu_to_inches]
  exact ⟨hval, h.2.2.1 (2/100) hval⟩

/-! ## Strip lemmas -/

theorem head?_dropWhile_not (p : Char → Bool) (l : List Char) :
    ∀ a, (l.dropWhile p).head? = some a → p a = false := by
  induction l with
  | nil => intro a h; simp at h
  | cons x xs ih =>
    intro a h
    rw [List.dropWhile_cons] at h
    by_cases hx : p x = true
    · rw [if_pos hx] at h
      exact ih a h
    · rw [if_neg hx] at h
      simp only [List.head?_cons, Option.some.injEq] at h
      subst h
      simpa using hx

theorem dropWhile_of_head_not (p : Char → Bool) (l : List Char)
    (h : ∀ a, l.head? = some a → p a = false) : l.dropWhile p = l := by
  cases l with
  | nil => rfl
  | cons x xs =>
    rw [List.dropWhile_cons, if_neg]
    simp [h x rfl]

theorem dropWhile_idem (p : Char → Bool) (l : List Char) :
    (l.dropWhile p).dropWhile p = l.dropWhile p :=
  dropWhile_of_head_not p _ (head?_dropWhile_not p l)

theorem getLast?_dropWhile (p : Char → Bool) (l : List Char)
    (h : l.dropWhile p ≠ []) : (l.dropWhile p).getLast? = l.getLast? := by
  induction l with
  | nil => simp at h
  | cons x xs ih =>
    rw [List.dropWhile_cons]
    by_cases hx : p x = true
    · rw [if_pos hx]
      rw [List.dropWhile_cons, if_pos hx] at h
      have hxs : xs ≠ [] := by
        intro he
        rw [he] at h
        simp at h
      rw [ih h, List.getLast?_cons]
      cases hl : xs.getLast? with
      | none =>
        exact absurd (List.getLast?_eq_none_iff.mp hl) hxs
      | some b => simp
    · rw [if_neg hx]

theorem head?_stripList_not (l : List Char) :
    ∀ a, (stripList l).head? = some a → isWS a = false := by
  intro a h
  unfold stripList at h
  rw [List.head?_reverse] at h
  by_cases hu : (l.dropWhile isWS).reverse.dropWhile isWS = []
  · rw [hu] at h
    simp at h
  · rw [getLast?_dropWhile _ _ hu, List.getLast?_reverse] at h
    exact head?_dropWhile_not isWS l a h

theorem stripList_idem (l : List Char) : stripList (stripList l) = stripList l := by
  have h1 : (stripList l).dropWhile isWS = stripList l :=
    dropWhile_of_head_not _ _ (head?_stripList_not l)
  show stripList (stripList l) = stripList l
  unfold stripList
  unfold stripList at h1
  rw [h1, List.reverse_reverse, dropWhile_idem]

theorem pyStrip_idem (s : String) : pyStrip (pyStrip s) = pyStrip s := by
  unfold pyStrip
  exact congrArg String.mk (stripList_idem s.data)

/-- C10 (confirmed): an entry appears in the serialized `paragraphs` list
of a ShapeRecord exactly for the source paragraphs whose stripped text is
non-empty (blank and whitespace-only paragraphs are omitted), and every
entry's `text` field holds non-empty, already-trimmed text. -/
theorem c10_serialized_paragraphs_nonblank (sd : ShapeData) (tf : PTextFrame)
    (htf : sd.shape.text_frame = some tf) :
    (∀ d, d ∈ sd.serializedParagraphs ↔
      ∃ p ∈ tf.paragraphs, pyStrip p.text ≠ "" ∧ d = (mkParagraphData p).to_dict) ∧
    (∀ d ∈ sd.serializedParagraphs,
      ∃ t, jsonLookup d "text" = some (.str t) ∧ t ≠ "" ∧ pyStrip t = t) := by
  have hpar : sd.paragraphs =
      (tf.paragraphs.filter (fun p => pyStrip p.text ≠ "")).map mkParagraphData := by
    unfold ShapeData.paragraphs
    rw [htf]
  constructor
  · intro d
    unfold ShapeData.serializedParagraphs
    rw [hpar]
    constructor
    · intro hd
      rcases List.mem_map.mp hd with ⟨pd, hpd, hde⟩
      rcases List.mem_map.mp hpd with ⟨p, hp, hpe⟩
      rcases List.mem_filter.mp hp with ⟨hpmem, hpne⟩
      refine ⟨p, hpmem, by simpa using hpne, ?_⟩
      rw [← hde, ← hpe]
    · rintro ⟨p, hpmem, hpne, rfl⟩
      exact List.mem_map.mpr ⟨mkParagraphData p,
        List.mem_map.mpr ⟨p, List.mem_filter.mpr ⟨hpmem, by simpa using hpne⟩, rfl⟩, rfl⟩
  · intro d hd
    unfold ShapeData.serializedParagraphs at hd
    rw [hpar] at hd
    rcases List.mem_map.mp hd with ⟨pd, hpd, hde⟩
    rcases List.mem_map.mp hpd with ⟨p, hp, hpe⟩
    rcases List.mem_filter.mp hp with ⟨_, hpne⟩
    refine ⟨pyStrip p.text, ?_, by simpa using hpne, pyStrip_idem _⟩
    rw [← hde, ← hpe]
    rfl

/-- C10 witness: in the serialized paragraphs of `sdW` the entry for
" hi " appears and its `text` field is the non-empty trimmed "hi". -/
theorem c10_witness :
    ((mkParagraphData (paraFix " hi ")).to_dict ∈ sdW.serializedParagraphs) ∧
      (∃ t, jsonLookup (mkParagraphData (paraFix " hi ")).to_dict "text" = some (.str t) ∧
        t ≠ "" ∧ pyStrip t = t) := by
  have hmem : (mkParagraphData (paraFix " hi ")).to_dict ∈ sdW.serializedParagraphs :=
    ((c10_serialized_paragraphs_nonblank sdW tfW rfl).1 _).mpr
      ⟨paraFix " hi ", by simp [tfW], by decide, rfl⟩
  exact ⟨hmem, (c10_serialized_paragraphs_nonblank sdW tfW rfl).2 _ hmem⟩

theorem rowsAux_cons (rt : ℚ) (cur : List ShapeData) (s : ShapeData)
    (rest : List ShapeData) :
    rowsAux rt cur (s :: rest) =
      if |s.top - rt| ≤ 1/2 then rowsAux rt (cur ++ [s]) rest
      else cur :: rowsAux s.top [s] rest := rfl

theorem foldl_rowStep_eq_rowsAux (rest : List ShapeData) :
    ∀ (res row : List ShapeData) (rt : ℚ),
      (rest.foldl rowStep (res, row, rt)).1 ++
        ((rest.foldl rowStep (res, row, rt)).2.1.mergeSort leftLe) =
      res ++ ((rowsAux rt row rest).map (fun r => r.mergeSort leftLe)).flatten := by
  induction rest with
  | nil =>
    intro res row rt
    simp [rowsAux]
  | cons s rest ih =>
    intro res row rt
    rw [List.foldl_cons]
    by_cases hc : |s.top - rt| ≤ 1/2
    · have hs : rowStep (res, row, rt) s = (res, row ++ [s], rt) := by
        unfold rowStep
        rw [if_pos (by simpa using hc)]
      rw [hs, ih res (row ++ [s]) rt, rowsAux_cons, if_pos hc]
    · have hs : rowStep (res, row, rt) s = (res ++ row.mergeSort leftLe, [s], s.top) := by
        unfold rowStep
        rw [if_neg (by simpa using hc)]
      rw [hs, ih (res ++ row.mergeSort leftLe) [s] s.top, rowsAux_cons, if_neg hc]
      simp [List.append_assoc]

/-- C3 (confirmed): the layout sorter sorts ascending by `(top, left)`,
groups records into rows in a single pass — a record joins the current row
exactly when its top is within 0.5in of the row's anchor top (the row's
first record), else it starts a new row — re-sorts each row by `left`, and
returns the concatenation of the rows in formation order. -/
theorem c3_layout_sorter_eq_spec (shapes : List ShapeData) :
    sort_shapes_by_position shapes = layout_sorter_spec shapes := by
  unfold sort_shapes_by_position layout_sorter_spec
  by_cases he : shapes.isEmpty
  · rw [if_pos he]
    rw [List.isEmpty_iff] at he
    subst he
    simp [rowsOf]
  · rw [if_neg he]
    have hne : shapes.mergeSort keyLe ≠ [] := by
      intro h
      have := @List.length_mergeSort _ keyLe shapes
      rw [h] at this
      rw [List.isEmpty_iff] at he
      exact he (List.length_eq_zero.mp this.symm)
    cases hm : shapes.mergeSort keyLe with
    | nil => exact absurd hm hne
    | cons s0 rest =>
      show (rest.foldl rowStep ([], [s0], s0.top)).1 ++
          ((rest.foldl rowStep ([], [s0], s0.top)).2.1.mergeSort leftLe) = _
      rw [foldl_rowStep_eq_rowsAux rest [] [s0] s0.top]
      simp [rowsOf]

/-- Membership in the sorter's output implies membership in its input. -/
theorem mem_sort_shapes_by_position {a : ShapeData} {shapes : List ShapeData}
    (h : a ∈ sort_shapes_by_position shapes) : a ∈ shapes := by
  rw [c3_layout_sorter_eq_spec] at h
  unfold layout_sorter_spec at h
  rw [List.mem_flatten] at h
  obtain ⟨l, hl, hal⟩ := h
  rw [List.mem_map] at hl
  obtain ⟨row, hrow, rfl⟩ := hl
  rw [List.mem_mergeSort] at hal
  have hflat : a ∈ (rowsOf (shapes.mergeSort keyLe)).flatten :=
    List.mem_flatten.mpr ⟨row, hrow, hal⟩
  have hrows : ∀ (rest cur : List ShapeData) (rt : ℚ),
      (rowsAux rt cur rest).flatten = cur ++ rest := by
    intro rest
    induction rest with
    | nil => intro cur rt; simp [rowsAux]
    | cons s rest ih =>
      intro cur rt
      rw [rowsAux_cons]
      by_cases hc : |s.top - rt| ≤ 1/2
      · rw [if_pos hc, ih]
        simp
      · rw [if_neg hc]
        rw [List.flatten_cons, ih]
        simp
  rw [← @List.mem_mergeSort _ keyLe _ _]
  cases hm : shapes.mergeSort keyLe with
  | nil =>
    rw [hm] at hflat
    simp [rowsOf] at hflat
  | cons s0 rest =>
    rw [hm] at hflat
    unfold rowsOf at hflat
    rw [hrows rest [s0] s0.top] at hflat
    simpa using hflat

/-! ## Geometry-resolver and assembler membership lemmas -/

theorem collect_leaf (s : PShape) (pl pt : ℤ) :
    collect_shapes_with_absolute_positions (.leaf s) pl pt =
      if is_valid_shape s then
        [{ shape := s, absolute_left := pl + (s.left.getD 0),
           absolute_top := pt + (s.top.getD 0) }]
      else [] := by
  unfold collect_shapes_with_absolute_positions
  rfl

theorem collect_group (gl gt : ℤ) (children : List SNode) (pl pt : ℤ) :
    collect_shapes_with_absolute_positions (.group gl gt children) pl pt =
      (children.attach.map fun child =>
        collect_shapes_with_absolute_positions child.1 (pl + gl) (pt + gt)).flatten := by
  conv_lhs => rw [collect_shapes_with_absolute_positions]

/-- Every record emitted by the geometry resolver passes the shape filter. -/
theorem collect_valid : ∀ (node : SNode) (pl pt : ℤ) (swp : ShapeWithPosition),
    swp ∈ collect_shapes_with_absolute_positions node pl pt →
    is_valid_shape swp.shape = true
  | .group gl gt children, pl, pt, swp => fun h => by
    rw [collect_group, List.mem_flatten] at h
    obtain ⟨li, hli, hswp⟩ := h
    rw [List.mem_map] at hli
    obtain ⟨c, _, rfl⟩ := hli
    exact collect_valid c.1 _ _ swp hswp
  | .leaf s, pl, pt, swp => fun h => by
    rw [collect_leaf] at h
    by_cases hv : is_valid_shape s = true
    · rw [if_pos hv, List.mem_singleton] at h
      rw [h]
      exact hv
    · rw [if_neg hv] at h
      exact absurd h (List.not_mem_nil _)
termination_by node _ _ _ => sizeOf node
decreasing_by
  have h := List.sizeOf_lt_of_mem c.2
  simp only [SNode.group.sizeOf_spec]
  omega

theorem set_of_getElem? {α : Type} (l : List α) (i : ℕ) (a : α)
    (h : l[i]? = some a) : l.set i a = l := by
  apply List.ext_getElem?
  intro n
  rw [List.getElem?_set]
  by_cases hin : i = n
  · subst hin
    rw [if_pos rfl, if_pos (List.getElem?_eq_some.mp h).1, h]
  · rw [if_neg hin]

theorem map_eraseOv_set_set (l : List ShapeData) (i j : ℕ) (s1 s2 x y : ShapeData)
    (hi : l[i]? = some s1) (hj : l[j]? = some s2)
    (hx : eraseOv x = eraseOv s1) (hy : eraseOv y = eraseOv s2) :
    ((l.set i x).set j y).map eraseOv = l.map eraseOv := by
  rw [List.map_set, List.map_set, hx, hy]
  rcases eq_or_ne i j with rfl | hij
  · have hs : s1 = s2 := Option.some.inj (hi.symm.trans hj)
    rw [List.set_set]
    apply set_of_getElem?
    rw [List.getElem?_map, hi, hs]
    rfl
  · rw [set_of_getElem? _ j _ (by rw [List.getElem?_set_ne hij, List.getElem?_map, hj]; rfl)]
    exact set_of_getElem? _ i _ (by rw [List.getElem?_map, hi]; rfl)

theorem overlapStep_eraseOv (l : List ShapeData) (i j : ℕ) :
    (overlapStep l i j).map eraseOv = l.map eraseOv := by
  unfold overlapStep
  cases hi : l[i]? with
  | none => rfl
  | some s1 =>
    cases hj : l[j]? with
    | none => rfl
    | some s2 =>
      dsimp only
      by_cases hov : (calculate_overlap (s1.left, s1.top, s1.width, s1.height)
          (s2.left, s2.top, s2.width, s2.height)).1 = true
      · rw [if_pos hov]
        exact map_eraseOv_set_set l i j s1 s2 _ _ hi hj rfl rfl
      · rw [if_neg hov]

theorem foldl_overlapStep_inner_eraseOv (i : ℕ) (js : List ℕ) :
    ∀ acc : List ShapeData,
      ((js.foldl (fun acc2 j => overlapStep acc2 i j) acc)).map eraseOv =
        acc.map eraseOv := by
  induction js with
  | nil => intro acc; rfl
  | cons j js ih =>
    intro acc
    rw [List.foldl_cons, ih, overlapStep_eraseOv]

theorem foldl_overlapStep_outer_eraseOv (n : ℕ) (is : List ℕ) :
    ∀ acc : List ShapeData,
      ((is.foldl (fun acc i =>
          (List.range' (i + 1) (n - (i + 1))).foldl
            (fun acc2 j => overlapStep acc2 i j) acc) acc)).map eraseOv =
        acc.map eraseOv := by
  induction is with
  | nil => intro acc; rfl
  | cons i is ih =>
    intro acc
    rw [List.foldl_cons, ih, foldl_overlapStep_inner_eraseOv]

theorem detect_overlaps_eraseOv (l : List ShapeData) :
    (detect_overlaps l).map eraseOv = l.map eraseOv := by
  unfold detect_overlaps
  exact foldl_overlapStep_outer_eraseOv l.length (List.range l.length) l

theorem extractStep_append (env : MeasureEnv) (io : Bool)
    (a b : List (String × List ShapeData)) (it : ℕ × PSlide) :
    extractStep env io (a ++ b) it = a ++ extractStep env io b it := by
  unfold extractStep
  by_cases h1 : (slideShapesWithPositions it.2).isEmpty
  · rw [if_pos h1, if_pos h1]
  · rw [if_neg h1, if_neg h1]
    dsimp only
    by_cases h2 : (processSlide env it.2 io).isEmpty
    · rw [if_pos h2, if_pos h2]
    · rw [if_neg h2, if_neg h2, List.append_assoc]

theorem foldl_extractStep_append (env : MeasureEnv) (io : Bool)
    (items : List (ℕ × PSlide)) :
    ∀ acc : List (String × List ShapeData),
      items.foldl (extractStep env io) acc =
        acc ++ items.foldl (extractStep env io) [] := by
  induction items with
  | nil => intro acc; simp
  | cons it items ih =>
    intro acc
    rw [List.foldl_cons, List.foldl_cons, ih (extractStep env io acc it),
      ih (extractStep env io [] it)]
    have hsa : extractStep env io acc it = acc ++ extractStep env io [] it := by
      conv_lhs => rw [show acc = acc ++ [] from (List.append_nil acc).symm]
      rw [extractStep_append]
    rw [hsa, List.append_assoc]

/-- Every inventory entry comes from one slide's `processSlide` run. -/
theorem mem_foldl_extractStep (env : MeasureEnv) (io : Bool) :
    ∀ (items : List (ℕ × PSlide)) (p : String × List ShapeData),
      p ∈ items.foldl (extractStep env io) [] →
      ∃ it ∈ items, p = ("slide-" ++ toString it.1, processSlide env it.2 io) := by
  intro items
  induction items with
  | nil => intro p h; simp at h
  | cons it items ih =>
    intro p h
    rw [List.foldl_cons, foldl_extractStep_append, List.mem_append] at h
    rcases h with h | h
    · unfold extractStep at h
      by_cases h1 : (slideShapesWithPositions it.2).isEmpty
      · rw [if_pos h1] at h
        exact absurd h (List.not_mem_nil _)
      · rw [if_neg h1] at h
        dsimp only at h
        by_cases h2 : (processSlide env it.2 io).isEmpty
        · rw [if_pos h2] at h
          exact absurd h (List.not_mem_nil _)
        · rw [if_neg h2, List.nil_append, List.mem_singleton] at h
          exact ⟨it, List.mem_cons_self _ _, h⟩
    · obtain ⟨it', hit', he⟩ := ih p h
      exact ⟨it', List.mem_cons_of_mem _ hit', he⟩

/-- Every ShapeData in a `processSlide` result carries the `shape` handle
of some record emitted by the geometry resolver for that slide. -/
theorem processSlide_shape_from_collect (env : MeasureEnv) (slide : PSlide)
    (io : Bool) (sd : ShapeData) (h : sd ∈ processSlide env slide io) :
    ∃ swp ∈ slideShapesWithPositions slide, sd.shape = swp.shape := by
  unfold processSlide at h
  dsimp only at h
  have h2 : sd ∈ (if (assignIds (sort_shapes_by_position (slideShapeDataList env slide))).length > 1
      then detect_overlaps (assignIds (sort_shapes_by_position (slideShapeDataList env slide)))
      else assignIds (sort_shapes_by_position (slideShapeDataList env slide))) := by
    cases io with
    | true => exact (List.mem_filter.mp (by simpa using h)).1
    | false => simpa using h
  have h3 : ∃ sd1 ∈ assignIds (sort_shapes_by_position (slideShapeDataList env slide)),
      sd1.shape = sd.shape := by
    by_cases hlen : (assignIds (sort_shapes_by_position (slideShapeDataList env slide))).length > 1
    · rw [if_pos hlen] at h2
      have hm : eraseOv sd ∈ (detect_overlaps
          (assignIds (sort_shapes_by_position (slideShapeDataList env slide)))).map eraseOv :=
        List.mem_map.mpr ⟨sd, h2, rfl⟩
      rw [detect_overlaps_eraseOv] at hm
      obtain ⟨sd1, hsd1, he⟩ := List.mem_map.mp hm
      exact ⟨sd1, hsd1,
        show (eraseOv sd1).shape = (eraseOv sd).shape from congrArg ShapeData.shape he⟩
    · rw [if_neg hlen] at h2
      exact ⟨sd, h2, rfl⟩
  obtain ⟨sd1, hsd1, he⟩ := h3
  obtain ⟨p, hp, hpe⟩ := List.mem_map.mp hsd1
  have hp2 : p.2 ∈ sort_shapes_by_position (slideShapeDataList env slide) := by
    obtain ⟨hlt, hpe2⟩ := List.mem_enum hp
    rw [hpe2]
    exact List.getElem_mem hlt
  have hp3 := mem_sort_shapes_by_position hp2
  obtain ⟨swp, hswp, hswpe⟩ := List.mem_map.mp hp3
  refine ⟨swp, hswp, ?_⟩
  have e2 := congrArg ShapeData.shape hpe
  have e3 := congrArg ShapeData.shape hswpe
  exact ((e3.trans e2).trans he).symm

/-- Every shape record in the inventory passes the shape filter. -/
theorem extract_mem_valid (env : MeasureEnv) (slides : List PSlide) (io : Bool)
    (k : String) (sds : List ShapeData) (sd : ShapeData)
    (hmem : (k, sds) ∈ extract_text_inventory env slides io) (hsd : sd ∈ sds) :
    is_valid_shape sd.shape = true := by
  obtain ⟨it, _, he⟩ := mem_foldl_extractStep env io slides.enum (k, sds) hmem
  have hsds : sds = processSlide env it.2 io := congrArg Prod.snd he
  rw [hsds] at hsd
  obtain ⟨swp, hswp, hshape⟩ := processSlide_shape_from_collect env it.2 io sd hsd
  unfold slideShapesWithPositions at hswp
  rw [List.mem_flatMap] at hswp
  obtain ⟨node, _, hswpc⟩ := hswp
  rw [hshape]
  exact collect_valid node 0 0 swp hswpc

/-- C4 (confirmed): a shape is admitted by the shape filter iff it exposes
a text frame, the frame's concatenated trimmed text is non-empty, and it
is neither a slide-number placeholder nor a footer placeholder with purely
numeric text; and consequently a shape whose text is empty or
whitespace-only never appears in the inventory. -/
theorem c4_shape_filter (s : PShape) :
    (is_valid_shape s = true ↔
      ∃ tf, s.text_frame = some tf ∧ pyStrip (tfText tf) ≠ "" ∧
        ¬ isPlaceholderOfType s "SLIDE_NUMBER" ∧
        ¬ (isPlaceholderOfType s "FOOTER" ∧ pyIsDigit (pyStrip (tfText tf)) = true)) ∧
    (∀ (env : MeasureEnv) (slides : List PSlide) (io : Bool) (k : String)
        (sds : List ShapeData) (sd : ShapeData) (tf : PTextFrame),
      (k, sds) ∈ extract_text_inventory env slides io → sd ∈ sds →
      sd.shape.text_frame = some tf → pyStrip (tfText tf) ≠ "") := by
  constructor
  · unfold is_valid_shape
    cases htf : s.text_frame with
    | none => simp
    | some tf =>
      dsimp only
      by_cases ht : pyStrip (tfText tf) = ""
      · rw [if_pos ht]
        simp [ht]
      · rw [if_neg ht]
        by_cases hph : s.is_placeholder = true ∧ strTruthy s.ph_type_raw = true
        · rw [if_pos (by simpa using hph)]
          by_cases hsn : parsePlaceholderType (s.ph_type_raw.getD "") = "SLIDE_NUMBER"
          · rw [if_pos hsn]
            simp only [Bool.false_eq_true, false_iff]
            intro ⟨tf', htf', _, hnsn, _⟩
            cases htf' with
            | refl => exact hnsn ⟨hph.1, hph.2, hsn⟩
          · rw [if_neg hsn]
            by_cases hft : parsePlaceholderType (s.ph_type_raw.getD "") = "FOOTER" ∧
                pyIsDigit (pyStrip (tfText tf)) = true
            · rw [if_pos (by simpa using hft)]
              simp only [Bool.false_eq_true, false_iff]
              intro ⟨tf', htf', _, _, hnft⟩
              cases htf' with
              | refl => exact hnft ⟨⟨hph.1, hph.2, hft.1⟩, hft.2⟩
            · rw [if_neg (by simpa using hft)]
              simp only [true_iff]
              refine ⟨tf, rfl, ht, ?_, ?_⟩
              · intro ⟨_, _, hc⟩
                exact hsn hc
              · intro ⟨⟨_, _, hc⟩, hd⟩
                exact hft ⟨hc, hd⟩
        · rw [if_neg (by simpa using hph)]
          simp only [true_iff]
          refine ⟨tf, rfl, ht, ?_, ?_⟩
          · intro ⟨h1, h2, _⟩
            exact hph ⟨h1, h2⟩
          · intro ⟨⟨h1, h2, _⟩, _⟩
            exact hph ⟨h1, h2⟩
  · intro env slides io k sds sd tf hmem hsd htf
    have hv := extract_mem_valid env slides io k sds sd hmem hsd
    unfold is_valid_shape at hv
    rw [htf] at hv
    dsimp only at hv
    by_cases ht : pyStrip (tfText tf) = ""
    · rw [if_pos ht] at hv
      cases hv
    · exact ht

theorem evW_collect : slideShapesWithPositions slideW3 =
    [⟨shW0, 0, 0⟩, ⟨shW1, 0, 914400⟩, ⟨shW2, 0, 1828800⟩] := by
  show ([.leaf shW0, .leaf shW1, .leaf shW2] : List SNode).flatMap
    (fun sh => collect_shapes_with_absolute_positions sh 0 0) = _
  simp only [List.flatMap_cons, List.flatMap_nil, collect_leaf]
  rw [if_pos (by decide), if_pos (by decide), if_pos (by decide)]
  rfl

theorem evW_mk0 : mkShapeData envFix shW0 (some 0) (some 0) (some slideW3) =
    mkSdW shW0 0 0 "" warnBul := by
  simp +decide [mkShapeData, envFix, shW0, leafFix, tfFix, paraFix, slideW3, mkSdW,
    get_slide_dimensions, _estimate_frame_overflow, _get_usable_dimensions, zTruthy,
    qTruthy, strTruthy, inches_to_pixels, pyInt, shapeMasterDefaultFontSize,
    total_height_px, estStep, mkParagraphData, pyOrS, pyOrQ, resolveFont,
    paraWrappedLines, _wrap_text_line, pyStrip, stripList, isWS, pySplit, splitList,
    _calculate_slide_overflow, _detect_bullet_issues, round2, roundHalfEven,
    emu_to_inches, warnBul,
    show "• a".length = 3 from rfl, show "•".length = 1 from rfl,
    show " ".length = 1 from rfl, show "a".length = 1 from rfl]
  norm_num

theorem evW_mk1 : mkShapeData envFix shW1 (some 0) (some 914400) (some slideW3) =
    mkSdW shW1 1 914400 "" [] := by
  simp +decide [mkShapeData, envFix, shW1, leafFix, tfFix, paraFix, slideW3, mkSdW,
    get_slide_dimensions, _estimate_frame_overflow, _get_usable_dimensions, zTruthy,
    qTruthy, strTruthy, inches_to_pixels, pyInt, shapeMasterDefaultFontSize,
    total_height_px, estStep, mkParagraphData, pyOrS, pyOrQ, resolveFont,
    paraWrappedLines, _wrap_text_line, pyStrip, stripList, isWS, pySplit, splitList,
    _calculate_slide_overflow, _detect_bullet_issues, round2, roundHalfEven,
    emu_to_inches, show "b".length = 1 from rfl]
  norm_num

theorem evW_mk2 : mkShapeData envFix shW2 (some 0) (some 1828800) (some slideW3) =
    mkSdW shW2 2 1828800 "" warnBul := by
  simp +decide [mkShapeData, envFix, shW2, leafFix, tfFix, paraFix, slideW3, mkSdW,
    get_slide_dimensions, _estimate_frame_overflow, _get_usable_dimensions, zTruthy,
    qTruthy, strTruthy, inches_to_pixels, pyInt, shapeMasterDefaultFontSize,
    total_height_px, estStep, mkParagraphData, pyOrS, pyOrQ, resolveFont,
    paraWrappedLines, _wrap_text_line, pyStrip, stripList, isWS, pySplit, splitList,
    _calculate_slide_overflow, _detect_bullet_issues, round2, roundHalfEven,
    emu_to_inches, warnBul,
    show "• c".length = 3 from rfl, show "•".length = 1 from rfl,
    show " ".length = 1 from rfl, show "c".length = 1 from rfl]
  norm_num

theorem evW_sdl : slideShapeDataList envFix slideW3 =
    [mkSdW shW0 0 0 "" warnBul, mkSdW shW1 1 914400 "" [],
     mkSdW shW2 2 1828800 "" warnBul] := by
  unfold slideShapeDataList
  rw [evW_collect]
  simp only [List.map_cons, List.map_nil]
  rw [evW_mk0, evW_mk1, evW_mk2]

theorem evW_sort : sort_shapes_by_position
    [mkSdW shW0 0 0 "" warnBul, mkSdW shW1 1 914400 "" [],
     mkSdW shW2 2 1828800 "" warnBul] =
    [mkSdW shW0 0 0 "" warnBul, mkSdW shW1 1 914400 "" [],
     mkSdW shW2 2 1828800 "" warnBul] := by
  unfold sort_shapes_by_position
  rw [if_neg (by decide)]
  rw [List.mergeSort_of_sorted (by decide)]
  simp only [List.foldl_cons, List.foldl_nil, rowStep]
  norm_num [mkSdW]

theorem evW_ids : assignIds
    [mkSdW shW0 0 0 "" warnBul, mkSdW shW1 1 914400 "" [],
     mkSdW shW2 2 1828800 "" warnBul] =
    [mkSdW shW0 0 0 "shape-0" warnBul, mkSdW shW1 1 914400 "shape-1" [],
     mkSdW shW2 2 1828800 "shape-2" warnBul] := rfl

theorem evW_detect : detect_overlaps
    [mkSdW shW0 0 0 "shape-0" warnBul, mkSdW shW1 1 914400 "shape-1" [],
     mkSdW shW2 2 1828800 "shape-2" warnBul] =
    [mkSdW shW0 0 0 "shape-0" warnBul, mkSdW shW1 1 914400 "shape-1" [],
     mkSdW shW2 2 1828800 "shape-2" warnBul] := by
  have h01 : overlapStep [mkSdW shW0 0 0 "shape-0" warnBul, mkSdW shW1 1 914400 "shape-1" [], mkSdW shW2 2 1828800 "shape-2" warnBul] 0 1 = [mkSdW shW0 0 0 "shape-0" warnBul, mkSdW shW1 1 914400 "shape-1" [], mkSdW shW2 2 1828800 "shape-2" warnBul] := by
    unfold overlapStep
    norm_num [calculate_overlap, mkSdW, min_def, max_def]
  have h02 : overlapStep [mkSdW shW0 0 0 "shape-0" warnBul, mkSdW shW1 1 914400 "shape-1" [], mkSdW shW2 2 1828800 "shape-2" warnBul] 0 2 = [mkSdW shW0 0 0 "shape-0" warnBul, mkSdW shW1 1 914400 "shape-1" [], mkSdW shW2 2 1828800 "shape-2" warnBul] := by
    unfold overlapStep
    norm_num [calculate_overlap, mkSdW, min_def, max_def]
  have h12 : overlapStep [mkSdW shW0 0 0 "shape-0" warnBul, mkSdW shW1 1 914400 "shape-1" [], mkSdW shW2 2 1828800 "shape-2" warnBul] 1 2 = [mkSdW shW0 0 0 "shape-0" warnBul, mkSdW shW1 1 914400 "shape-1" [], mkSdW shW2 2 1828800 "shape-2" warnBul] := by
    unfold overlapStep
    norm_num [calculate_overlap, mkSdW, min_def, max_def]
  show (List.range (([mkSdW shW0 0 0 "shape-0" warnBul, mkSdW shW1 1 914400 "shape-1" [], mkSdW shW2 2 1828800 "shape-2" warnBul] : List ShapeData).length)).foldl
    (fun acc i => (List.range' (i + 1) (([mkSdW shW0 0 0 "shape-0" warnBul, mkSdW shW1 1 914400 "shape-1" [], mkSdW shW2 2 1828800 "shape-2" warnBul] : List ShapeData).length - (i + 1))).foldl
      (fun acc2 j => overlapStep acc2 i j) acc)
    [mkSdW shW0 0 0 "shape-0" warnBul, mkSdW shW1 1 914400 "shape-1" [], mkSdW shW2 2 1828800 "shape-2" warnBul] = [mkSdW shW0 0 0 "shape-0" warnBul, mkSdW shW1 1 914400 "shape-1" [], mkSdW shW2 2 1828800 "shape-2" warnBul]
  simp only [show ([mkSdW shW0 0 0 "shape-0" warnBul, mkSdW shW1 1 914400 "shape-1" [], mkSdW shW2 2 1828800 "shape-2" warnBul] : List ShapeData).length = 3 from rfl,
    show List.range 3 = [0, 1, 2] from rfl, List.foldl_cons, List.foldl_nil,
    show (0 : ℕ) + 1 = 1 from rfl, show (1 : ℕ) + 1 = 2 from rfl,
    show (2 : ℕ) + 1 = 3 from rfl, show (3 : ℕ) - 1 = 2 from rfl,
    show (3 : ℕ) - 2 = 1 from rfl, show (3 : ℕ) - 3 = 0 from rfl,
    show List.range' 1 2 = [1, 2] from rfl, show List.range' 2 1 = [2] from rfl,
    show List.range' 3 0 = [] from rfl]
  rw [h01, h02, h12]

theorem evW_process_full : processSlide envFix slideW3 false =
    [mkSdW shW0 0 0 "shape-0" warnBul, mkSdW shW1 1 914400 "shape-1" [],
     mkSdW shW2 2 1828800 "shape-2" warnBul] := by
  unfold processSlide
  rw [evW_sdl, evW_sort, evW_ids]
  simp only [show (([mkSdW shW0 0 0 "shape-0" warnBul, mkSdW shW1 1 914400 "shape-1" [], mkSdW shW2 2 1828800 "shape-2" warnBul] : List ShapeData).length > 1) = True from by simp,
    if_true, Bool.false_eq_true, if_false]
  exact evW_detect

theorem evW_process_issues : processSlide envFix slideW3 true =
    [mkSdW shW0 0 0 "shape-0" warnBul, mkSdW shW2 2 1828800 "shape-2" warnBul] := by
  unfold processSlide
  rw [evW_sdl, evW_sort, evW_ids]
  simp only [show (([mkSdW shW0 0 0 "shape-0" warnBul, mkSdW shW1 1 914400 "shape-1" [], mkSdW shW2 2 1828800 "shape-2" warnBul] : List ShapeData).length > 1) = True from by simp,
    if_true]
  rw [evW_detect]
  rfl

theorem evW_extract_full : extract_text_inventory envFix [slideW3] false =
    [("slide-0", [mkSdW shW0 0 0 "shape-0" warnBul, mkSdW shW1 1 914400 "shape-1" [],
      mkSdW shW2 2 1828800 "shape-2" warnBul])] := by
  unfold extract_text_inventory
  rw [show ([slideW3] : List PSlide).enum = [(0, slideW3)] from rfl]
  rw [List.foldl_cons, List.foldl_nil]
  unfold extractStep
  rw [if_neg (by rw [evW_collect]; decide)]
  dsimp only
  rw [evW_process_full]
  rw [if_neg (by decide)]
  rfl

theorem evW_extract_issues : extract_text_inventory envFix [slideW3] true =
    [("slide-0", [mkSdW shW0 0 0 "shape-0" warnBul,
      mkSdW shW2 2 1828800 "shape-2" warnBul])] := by
  unfold extract_text_inventory
  rw [show ([slideW3] : List PSlide).enum = [(0, slideW3)] from rfl]
  rw [List.foldl_cons, List.foldl_nil]
  unfold extractStep
  rw [if_neg (by rw [evW_collect]; decide)]
  dsimp only
  rw [evW_process_issues]
  rw [if_neg (by decide)]
  rfl

theorem splitList_ne_nil (c : Char) (l : List Char) : splitList c l ≠ [] := by
  cases l with
  | nil => simp [splitList]
  | cons a rest =>
    unfold splitList
    by_cases h : a = c
    · simp [h]
    · simp [h]

theorem mem_splitList (c : Char) (l : List Char) (x : Char)
    (hx : x ∈ l) (hne : x ≠ c) : ∃ part ∈ splitList c l, x ∈ part := by
  induction l with
  | nil => cases hx
  | cons a rest ih =>
    unfold splitList
    dsimp only
    rcases List.mem_cons.mp hx with rfl | hx2
    · rw [if_neg (by intro h; exact hne h)]
      exact ⟨x :: (splitList c rest).headD [], List.mem_cons_self _ _, List.mem_cons_self _ _⟩
    · obtain ⟨part, hpart, hxp⟩ := ih hx2
      by_cases hac : a = c
      · rw [if_pos hac]
        exact ⟨part, List.mem_cons_of_mem _ hpart, hxp⟩
      · rw [if_neg hac]
        cases hsp : splitList c rest with
        | nil => exact absurd hsp (splitList_ne_nil c rest)
        | cons p0 ps =>
          rw [hsp] at hpart
          rcases List.mem_cons.mp hpart with hpe | hp2
          · exact ⟨a :: p0, List.mem_cons_self _ _,
              List.mem_cons_of_mem _ (hpe ▸ hxp)⟩
          · exact ⟨part, List.mem_cons_of_mem _ (by simpa using hp2), hxp⟩

/-- A string whose stripped form is non-empty contains a non-whitespace
character. -/
theorem exists_nonWS_of_pyStrip_ne (s : String) (h : pyStrip s ≠ "") :
    ∃ c ∈ s.data, isWS c = false := by
  by_contra hall
  push_neg at hall
  apply h
  have hws : ∀ c ∈ s.data, isWS c = true := by
    intro c hc
    have := hall c hc
    simpa using this
  have h1 : s.data.dropWhile isWS = [] := by
    rw [List.dropWhile_eq_nil_iff]
    exact hws
  show pyStrip s = ""
  unfold pyStrip stripList
  rw [h1]
  rfl

theorem append_ne_empty_of_right (a b : String) (hb : b ≠ "") : a ++ b ≠ "" := by
  intro h
  apply hb
  have hd := congrArg String.data h
  rw [String.data_append] at hd
  have hbd : b.data = [] := (List.append_eq_nil.mp hd).2
  cases b with
  | mk d => cases hbd; rfl

theorem append_ne_empty_of_left (a b : String) (ha : a ≠ "") : a ++ b ≠ "" := by
  intro h
  apply ha
  have hd := congrArg String.data h
  rw [String.data_append] at hd
  have had : a.data = [] := (List.append_eq_nil.mp hd).1
  cases a with
  | mk d => cases had; rfl

theorem wrapStep_inv (env : MeasureEnv) (font : PFont) (maxw : ℤ)
    (st : List String × String) (word : String) (h : wrapInv st) :
    wrapInv (wrapStep env font maxw st word) := by
  unfold wrapStep wrapInv
  dsimp only
  by_cases hfit : env.textlength font
      (st.2 ++ (if st.2 ≠ "" then " " else "") ++ word) ≤ (maxw : ℚ)
  · rw [if_pos hfit]
    rcases h with h | h
    · exact Or.inl h
    · exact Or.inr (append_ne_empty_of_left _ _ (append_ne_empty_of_left _ _ h))
  · rw [if_neg hfit]
    by_cases hcur : st.2 ≠ ""
    · rw [if_pos hcur]
      exact Or.inl (by simp)
    · rw [if_neg hcur]
      rcases h with h | h
      · exact Or.inl h
      · exact absurd h hcur

theorem wrapStep_establishes (env : MeasureEnv) (font : PFont) (maxw : ℤ)
    (st : List String × String) (word : String) (hw : word ≠ "") :
    wrapInv (wrapStep env font maxw st word) := by
  unfold wrapStep wrapInv
  dsimp only
  by_cases hfit : env.textlength font
      (st.2 ++ (if st.2 ≠ "" then " " else "") ++ word) ≤ (maxw : ℚ)
  · rw [if_pos hfit]
    exact Or.inr (append_ne_empty_of_right _ _ hw)
  · rw [if_neg hfit]
    by_cases hcur : st.2 ≠ ""
    · rw [if_pos hcur]
      exact Or.inl (by simp)
    · rw [if_neg hcur]
      exact Or.inr hw

/-- The wrap invariant is preserved by the rest of the fold. -/
theorem foldl_wrapStep_pres (env : MeasureEnv) (font : PFont) (maxw : ℤ)
    (words : List String) :
    ∀ st, wrapInv st → wrapInv (words.foldl (wrapStep env font maxw) st) := by
  induction words with
  | nil => intro st h; exact h
  | cons a rest ih =>
    intro st h
    rw [List.foldl_cons]
    exact ih _ (wrapStep_inv env font maxw st a h)

/-- After folding a word list containing a non-empty word, the wrap state
satisfies the invariant. -/
theorem foldl_wrapStep_inv (env : MeasureEnv) (font : PFont) (maxw : ℤ)
    (words : List String) (w : String) (hw : w ≠ "") (hmem : w ∈ words) :
    ∀ st, wrapInv (words.foldl (wrapStep env font maxw) st) := by
  induction words with
  | nil => cases hmem
  | cons a rest ih =>
    intro st
    rw [List.foldl_cons]
    rcases List.mem_cons.mp hmem with rfl | hmem2
    · exact foldl_wrapStep_pres env font maxw rest _
        (wrapStep_establishes env font maxw st w hw)
    · exact ih hmem2 _

/-- A line containing a non-whitespace character wraps to at least one
line. -/
theorem wrap_ne_nil (env : MeasureEnv) (maxw : ℤ) (font : PFont)
    (line : String) (c : Char) (hc : c ∈ line.data) (hws : isWS c = false) :
    _wrap_text_line env line maxw font ≠ [] := by
  unfold _wrap_text_line
  have hline : ¬(line = "") := by
    intro h
    rw [h] at hc
    cases hc
  rw [if_neg hline]
  by_cases hfit : env.textlength font line ≤ (maxw : ℚ)
  · rw [if_pos hfit]
    simp
  · rw [if_neg hfit]
    have hcsp : c ≠ ' ' := by
      intro h
      rw [h] at hws
      cases hws
    obtain ⟨part, hpart, hcp⟩ := mem_splitList ' ' line.data c hc hcsp
    have hwmem : (⟨part⟩ : String) ∈ pySplit ' ' line := by
      unfold pySplit
      exact List.mem_map.mpr ⟨part, hpart, rfl⟩
    have hwne : (⟨part⟩ : String) ≠ "" := by
      intro h
      have hd := congrArg String.data h
      rw [show (String.mk part).data = part from rfl] at hd
      rw [hd] at hcp
      cases hcp
    have hinv := foldl_wrapStep_inv env font maxw (pySplit ' ' line) ⟨part⟩ hwne hwmem ([], "")
    dsimp only
    rcases hinv with h | h
    · by_cases h2 : ((pySplit ' ' line).foldl (wrapStep env font maxw) ([], "")).2 ≠ ""
      · rw [if_pos h2]
        simp
      · rw [if_neg h2]
        exact h
    · rw [if_pos h]
      simp

/-- A paragraph whose stripped text is non-empty yields at least one
wrapped line. -/
theorem paraWrappedLines_ne_nil (env : MeasureEnv) (p : PPara) (uw : ℤ)
    (font : PFont) (h : pyStrip p.text ≠ "") :
    paraWrappedLines env p uw font ≠ [] := by
  obtain ⟨c, hc, hws⟩ := exists_nonWS_of_pyStrip_ne p.text h
  have hnl : c ≠ Char.ofNat 10 := by
    intro he
    rw [he] at hws
    cases hws
  obtain ⟨part, hpart, hcp⟩ := mem_splitList (Char.ofNat 10) p.text.data c hc hnl
  unfold paraWrappedLines
  rw [Ne, List.flatMap_eq_nil_iff]
  push_neg
  refine ⟨⟨part⟩, ?_, ?_⟩
  · unfold pySplit
    exact List.mem_map.mpr ⟨part, hpart, rfl⟩
  · exact wrap_ne_nil env uw font ⟨part⟩ c hcp hws

/-- One estimator step adds exactly the claim's per-paragraph
contribution (zero for blank paragraphs). -/
theorem estStep_eq (env : MeasureEnv) (uw dfs : ℤ) (acc : ℚ) (item : ℕ × PPara) :
    estStep env uw dfs acc item =
      acc + (if pyStrip item.2.text = "" then 0 else specParaHeight env uw dfs item) := by
  unfold estStep specParaHeight lineHeightPx paraFont paraFontSize
  by_cases hb : pyStrip item.2.text = ""
  · rw [if_pos hb, if_pos hb]
    ring
  · rw [if_neg hb, if_neg hb]
    dsimp only
    have hne := paraWrappedLines_ne_nil env item.2 uw
      (resolveFont env.fontPath env.truetypeOk
        (pyOrS (mkParagraphData item.2).font_name "Arial")
        (pyInt (pyOrQ (mkParagraphData item.2).font_size (dfs : ℚ)))) hb
    rw [if_pos hne]
    by_cases h1 : 0 < item.1 ∧ qTruthy (mkParagraphData item.2).space_before = true
    · rw [if_pos h1, if_pos h1]
      by_cases h2 : qTruthy (mkParagraphData item.2).space_after = true
      · rw [if_pos h2, if_pos h2]
        ring
      · rw [if_neg h2, if_neg h2]
        ring
    · rw [if_neg h1, if_neg h1]
      by_cases h2 : qTruthy (mkParagraphData item.2).space_after = true
      · rw [if_pos h2, if_pos h2]
        ring
      · rw [if_neg h2, if_neg h2]
        ring

theorem foldl_estStep_eq_sum (env : MeasureEnv) (uw dfs : ℤ)
    (l : List (ℕ × PPara)) :
    ∀ acc : ℚ, l.foldl (estStep env uw dfs) acc =
      acc + (l.map (fun item =>
        if pyStrip item.2.text = "" then 0 else specParaHeight env uw dfs item)).sum := by
  induction l with
  | nil => intro acc; simp
  | cons it l ih =>
    intro acc
    rw [List.foldl_cons, ih, estStep_eq]
    rw [List.map_cons, List.sum_cons]
    ring

theorem sum_ite_blank_filter (env : MeasureEnv) (uw dfs : ℤ) (l : List (ℕ × PPara)) :
    (l.map (fun item =>
      if pyStrip item.2.text = "" then 0 else specParaHeight env uw dfs item)).sum =
    ((l.filter (fun item => pyStrip item.2.text ≠ "")).map
      (specParaHeight env uw dfs)).sum := by
  induction l with
  | nil => rfl
  | cons it l ih =>
    rw [List.map_cons, List.sum_cons, List.filter_cons]
    by_cases hb : pyStrip it.2.text = ""
    · rw [if_pos hb, show (decide (pyStrip it.2.text ≠ "")) = false by simpa using hb, ih]
      simp
    · rw [if_neg hb, show (decide (pyStrip it.2.text ≠ "")) = true by simpa using hb]
      simp only [if_true]
      rw [List.map_cons, List.sum_cons, ih]

/-- C5 (confirmed): the estimator's accumulated total height equals the
sum, over the (non-blank) enumerated paragraphs, of wrapped-line-count ×
line-height plus the configured space-before (skipped for the first
paragraph of the frame) and space-after, where line-height is the explicit
line-spacing when set and the font size otherwise, both at 96/72 pixels
per point. -/
theorem c5_total_height_accumulation (env : MeasureEnv) (uw dfs : ℤ)
    (paras : List PPara) :
    total_height_px env uw dfs paras =
      ((paras.enum.filter (fun item => pyStrip item.2.text ≠ "")).map
        (specParaHeight env uw dfs)).sum := by
  unfold total_height_px
  rw [foldl_estStep_eq_sum, sum_ite_blank_filter, zero_add]

/-! ## C7: issues_only extraction -/

/-- The `issues_only` run of a slide is the full run filtered to the
shapes with issues. -/
theorem processSlide_true_eq_filter (env : MeasureEnv) (slide : PSlide) :
    processSlide env slide true = (processSlide env slide false).filter has_any_issues := by
  unfold processSlide
  rfl

/-- C7 (amended): `issues_only` extraction equals the full extraction with
each slide's list filtered to the shapes having any issue, and slides
whose filtered list is empty dropped entirely.  (A subset of the full
extraction, but not necessarily a strict one.) -/
theorem c7_issues_only_eq_filtered (env : MeasureEnv) (slides : List PSlide) :
    extract_text_inventory env slides true =
      ((extract_text_inventory env slides false).map
        (fun p => (p.1, p.2.filter has_any_issues))).filter
          (fun p => !p.2.isEmpty) := by
  unfold extract_text_inventory
  generalize slides.enum = items
  induction items with
  | nil => rfl
  | cons it items ih =>
    rw [List.foldl_cons, List.foldl_cons,
      foldl_extractStep_append env true items (extractStep env true [] it),
      foldl_extractStep_append env false items (extractStep env false [] it),
      List.map_append, List.filter_append, ih]
    congr 1
    unfold extractStep
    by_cases h1 : (slideShapesWithPositions it.2).isEmpty
    · rw [if_pos h1, if_pos h1]
      rfl
    · rw [if_neg h1, if_neg h1]
      dsimp only
      rw [processSlide_true_eq_filter]
      by_cases h2 : (processSlide env it.2 false).isEmpty
      · rw [if_pos h2]
        have h2e : processSlide env it.2 false = [] := by
          rwa [List.isEmpty_iff] at h2
        rw [if_pos (by rw [h2e]; rfl)]
        rfl
      · rw [if_neg h2]
        by_cases h3 : ((processSlide env it.2 false).filter has_any_issues).isEmpty
        · rw [if_pos h3]
          simp only [List.nil_append, List.map_cons, List.map_nil, List.filter_cons]
          rw [show (!((processSlide env it.2 false).filter has_any_issues).isEmpty) = false by
            simpa using h3]
          rfl
        · rw [if_neg h3]
          simp only [List.map_cons, List.map_nil, List.filter_cons, List.nil_append]
          rw [show (!((processSlide env it.2 false).filter has_any_issues).isEmpty) = true by
            simpa using h3]
          rfl

theorem sort_shapes_singleton (sd : ShapeData) :
    sort_shapes_by_position [sd] = [sd] := by
  unfold sort_shapes_by_position
  rw [if_neg (by simp)]
  rw [List.mergeSort_of_sorted (List.pairwise_singleton _ _)]
  simp only [List.foldl_nil]
  rw [List.mergeSort_of_sorted (List.pairwise_singleton _ _)]
  rfl

theorem evS_collect : slideShapesWithPositions slideW1 = [⟨shW0, 0, 0⟩] := by
  show ([.leaf shW0] : List SNode).flatMap
    (fun sh => collect_shapes_with_absolute_positions sh 0 0) = _
  simp only [List.flatMap_cons, List.flatMap_nil, collect_leaf]
  rw [if_pos (by decide)]
  rfl

theorem evS_mk0 : mkShapeData envFix shW0 (some 0) (some 0) (some slideW1) =
    mkSdW shW0 0 0 "" warnBul := by
  simp +decide [mkShapeData, envFix, shW0, leafFix, tfFix, paraFix, slideW1, mkSdW,
    get_slide_dimensions, _estimate_frame_overflow, _get_usable_dimensions, zTruthy,
    qTruthy, strTruthy, inches_to_pixels, pyInt, shapeMasterDefaultFontSize,
    total_height_px, estStep, mkParagraphData, pyOrS, pyOrQ, resolveFont,
    paraWrappedLines, _wrap_text_line, wrapStep, pyStrip, stripList, isWS, pySplit,
    splitList, _calculate_slide_overflow, _detect_bullet_issues, round2,
    roundHalfEven, emu_to_inches, warnBul,
    show "• a".length = 3 from rfl, show "•".length = 1 from rfl,
    show " ".length = 1 from rfl, show "a".length = 1 from rfl]
  norm_num

theorem evS_process_full : processSlide envFix slideW1 false =
    [mkSdW shW0 0 0 "shape-0" warnBul] := by
  unfold processSlide
  have hsdl : slideShapeDataList envFix slideW1 = [mkSdW shW0 0 0 "" warnBul] := by
    unfold slideShapeDataList
    rw [evS_collect]
    simp only [List.map_cons, List.map_nil]
    rw [evS_mk0]
  rw [hsdl, sort_shapes_singleton]
  rw [show assignIds [mkSdW shW0 0 0 "" warnBul] = [mkSdW shW0 0 0 "shape-0" warnBul] from rfl]
  rfl

theorem evS_process_issues : processSlide envFix slideW1 true =
    [mkSdW shW0 0 0 "shape-0" warnBul] := by
  rw [processSlide_true_eq_filter, evS_process_full]
  rfl

theorem evS_extract_full : extract_text_inventory envFix [slideW1] false =
    [("slide-0", [mkSdW shW0 0 0 "shape-0" warnBul])] := by
  unfold extract_text_inventory
  rw [show ([slideW1] : List PSlide).enum = [(0, slideW1)] from rfl]
  rw [List.foldl_cons, List.foldl_nil]
  unfold extractStep
  rw [if_neg (by rw [evS_collect]; decide)]
  dsimp only
  rw [evS_process_full]
  rfl

theorem evS_extract_issues : extract_text_inventory envFix [slideW1] true =
    [("slide-0", [mkSdW shW0 0 0 "shape-0" warnBul])] := by
  unfold extract_text_inventory
  rw [show ([slideW1] : List PSlide).enum = [(0, slideW1)] from rfl]
  rw [List.foldl_cons, List.foldl_nil]
  unfold extractStep
  rw [if_neg (by rw [evS_collect]; decide)]
  dsimp only
  rw [evS_process_issues]
  rfl

/-- C7 counterexample: on a presentation whose only inventoried shape has
an issue, `issues_only` extraction EQUALS the (non-empty) full extraction,
so it is not a strict subset of it. -/
theorem c7_counterexample :
    extract_text_inventory envFix [slideW1] true =
      extract_text_inventory envFix [slideW1] false ∧
    extract_text_inventory envFix [slideW1] false ≠ [] := by
  constructor
  · rw [evS_extract_issues, evS_extract_full]
  · rw [evS_extract_full]
    simp

/-! ## C9: ids assigned before the issues filter -/

/-- C9 (confirmed): shape ids are assigned before the `issues_only` filter
runs, so every shape record of the `issues_only` extraction appears — with
the same `shape-<n>` id — in the full extraction's slide entry; and the
ids surviving in the `issues_only` output can be non-contiguous, as on the
concrete three-shape presentation where they are shape-0 and shape-2. -/
theorem c9_ids_stable_across_filter :
    (∀ (env : MeasureEnv) (slides : List PSlide) (k : String)
        (sds : List ShapeData) (sd : ShapeData),
      (k, sds) ∈ extract_text_inventory env slides true → sd ∈ sds →
      ∃ sdsF, (k, sdsF) ∈ extract_text_inventory env slides false ∧ sd ∈ sdsF) ∧
    (extract_text_inventory envFix [slideW3] true).map
      (fun p => p.2.map ShapeData.shape_id) = [["shape-0", "shape-2"]] := by
  constructor
  · intro env slides k sds sd hmem hsd
    rw [c7_issues_only_eq_filtered] at hmem
    have hmem2 := List.mem_filter.mp hmem
    obtain ⟨p, hp, hpe⟩ := List.mem_map.mp hmem2.1
    refine ⟨p.2, ?_, ?_⟩
    · have hk : p.1 = k := congrArg Prod.fst hpe
      rw [← hk]
      exact hp
    · have hsds : p.2.filter has_any_issues = sds := congrArg Prod.snd hpe
      rw [← hsds] at hsd
      exact (List.mem_filter.mp hsd).1
  · rw [evW_extract_issues]
    rfl

/-- C9 witness: on the three-shape presentation, the record carrying id
"shape-2" in the `issues_only` extraction also appears, with the same id,
in the full extraction's entry for the same slide. -/
theorem c9_witness :
    ∃ sdsF, ("slide-0", sdsF) ∈ extract_text_inventory envFix [slideW3] false ∧
      mkSdW shW2 2 1828800 "shape-2" warnBul ∈ sdsF :=
  c9_ids_stable_across_filter.1 envFix [slideW3] "slide-0"
    [mkSdW shW0 0 0 "shape-0" warnBul, mkSdW shW2 2 1828800 "shape-2" warnBul]
    (mkSdW shW2 2 1828800 "shape-2" warnBul)
    (by rw [evW_extract_issues]; exact List.mem_singleton.mpr rfl)
    (List.mem_cons_of_mem _ (List.mem_cons_self _ _))

/-- C4 witness: the middle shape of the three-shape presentation is in the
inventory, and the filter conclusion applies: its text frame's stripped
text is non-empty. -/
theorem c4_witness :
    (("slide-0", [mkSdW shW0 0 0 "shape-0" warnBul, mkSdW shW1 1 914400 "shape-1" [],
        mkSdW shW2 2 1828800 "shape-2" warnBul]) ∈
      extract_text_inventory envFix [slideW3] false) ∧
    pyStrip (tfText (tfFix "b")) ≠ "" := by
  have hmem : ("slide-0", [mkSdW shW0 0 0 "shape-0" warnBul,
      mkSdW shW1 1 914400 "shape-1" [], mkSdW shW2 2 1828800 "shape-2" warnBul]) ∈
      extract_text_inventory envFix [slideW3] false := by
    rw [evW_extract_full]
    exact List.mem_singleton.mpr rfl
  refine ⟨hmem, ?_⟩
  exact (c4_shape_filter shW1).2 envFix [slideW3] false "slide-0" _
    (mkSdW shW1 1 914400 "shape-1" []) (tfFix "b") hmem
    (List.mem_cons_of_mem _ (List.mem_cons_self _ _)) rfl

theorem evB_collect : slideShapesWithPositions slideBoom =
    [⟨shBoom, 0, 0⟩, ⟨shW1, 0, 914400⟩] := by
  show ([.leaf shBoom, .leaf shW1] : List SNode).flatMap
    (fun sh => collect_shapes_with_absolute_positions sh 0 0) = _
  simp only [List.flatMap_cons, List.flatMap_nil, collect_leaf]
  rw [if_pos (by decide), if_pos (by decide)]
  rfl

/-- Constructing the ShapeData of the "BOOM" shape raises: the measurement
exception propagates out of `_estimate_frame_overflow` and
`ShapeData.__init__`, which have no handler for it. -/
theorem evB_mkE : mkShapeDataE envBoom shBoom (some 0) (some 0) (some slideBoom) =
    .error "pil fail" := by
  simp +decide [mkShapeDataE, envBoom, shBoom, leafFix, tfFix, paraFix, slideBoom,
    get_slide_dimensions, estimateFrameOverflowE, _get_usable_dimensions, zTruthy,
    qTruthy, strTruthy, inches_to_pixels, pyInt, shapeMasterDefaultFontSize,
    estStepE, mkParagraphData, pyOrS, pyOrQ, resolveFont, paraWrappedLinesE,
    wrapTextLineE, pyStrip, stripList, isWS, pySplit, splitList, round2,
    roundHalfEven, emu_to_inches, List.mapM_cons, List.mapM_nil, List.mapM.loop,
    List.foldlM_cons, List.foldlM_nil, show "BOOM".length = 4 from rfl]
  norm_num
  rfl

/-- The per-shape constructions of one slide run inside a list
comprehension: if one raises after the earlier ones succeeded, the mapM
over the collected shapes raises. -/
theorem mapM_mkShapeDataE_error (env : MeasureEnvE) (slide : PSlide) (e : String) :
    ∀ (pre : List ShapeWithPosition) (swp : ShapeWithPosition)
      (post : List ShapeWithPosition),
      (∀ w ∈ pre, ∃ d, mkShapeDataE env w.shape (some w.absolute_left)
        (some w.absolute_top) (some slide) = .ok d) →
      mkShapeDataE env swp.shape (some swp.absolute_left)
        (some swp.absolute_top) (some slide) = .error e →
      (pre ++ swp :: post).mapM (fun w => mkShapeDataE env w.shape
        (some w.absolute_left) (some w.absolute_top) (some slide)) = .error e := by
  intro pre
  induction pre with
  | nil =>
    intro swp post _ herr
    rw [List.nil_append, List.mapM_cons, herr]
    rfl
  | cons w pre ih =>
    intro swp post hok herr
    obtain ⟨d, hd⟩ := hok w (List.mem_cons_self _ _)
    rw [List.cons_append, List.mapM_cons, hd]
    have hMe := ih swp post (fun w2 hw2 => hok w2 (List.mem_cons_of_mem _ hw2)) herr
    generalize hM : (pre ++ swp :: post).mapM (fun w2 => mkShapeDataE env w2.shape
      (some w2.absolute_left) (some w2.absolute_top) (some slide)) = M at hMe ⊢
    subst hMe
    rfl

/-- C1 (amended): an exception raised while estimating one shape's frame
overflow propagates out of `extract_text_inventory`: when the failing
shape's ShapeData construction is reached (all earlier shapes on the slide
constructed fine), the whole call returns that error — no other shape is
inventoried and the failing shape does not appear with its overflow fields
absent; only `ImageFont.truetype` failures are caught internally. -/
theorem c1_exception_aborts_extraction (env : MeasureEnvE) (slide : PSlide)
    (io : Bool) (pre post : List ShapeWithPosition) (swp : ShapeWithPosition)
    (e : String)
    (hsplit : slideShapesWithPositions slide = pre ++ swp :: post)
    (hok : ∀ w ∈ pre, ∃ d, mkShapeDataE env w.shape (some w.absolute_left)
      (some w.absolute_top) (some slide) = .ok d)
    (herr : mkShapeDataE env swp.shape (some swp.absolute_left)
      (some swp.absolute_top) (some slide) = .error e) :
    extractTextInventoryE env [slide] io = .error e := by
  unfold extractTextInventoryE
  rw [show ([slide] : List PSlide).enum = [(0, slide)] from rfl]
  rw [List.foldlM_cons]
  have hstep : extractStepE env io [] (0, slide) = .error e := by
    unfold extractStepE
    dsimp only
    rw [show (slide.shapes.flatMap (fun sh =>
        collect_shapes_with_absolute_positions sh 0 0)) = pre ++ swp :: post from hsplit]
    rw [if_neg (by simp)]
    rw [mapM_mkShapeDataE_error env slide e pre swp post hok herr]
    rfl
  rw [hstep]
  rfl

theorem evB_mapM : ([⟨shBoom, 0, 0⟩, ⟨shW1, 0, 914400⟩] : List ShapeWithPosition).mapM
    (fun swp => mkShapeDataE envBoom swp.shape (some swp.absolute_left)
      (some swp.absolute_top) (some slideBoom)) = .error "pil fail" := by
  rw [List.mapM_cons]
  dsimp only
  rw [evB_mkE]
  rfl

/-- C1 counterexample: on a two-shape slide whose first shape's frame
overflow estimation raises, the whole `extract_text_inventory` call
returns the error: the second (healthy) shape is not inventoried and no
inventory containing the failing shape is produced, contradicting the
claimed skip-and-continue behavior. -/
theorem c1_counterexample :
    extractTextInventoryE envBoom [slideBoom] false = .error "pil fail" ∧
    ∀ inv, extractTextInventoryE envBoom [slideBoom] false ≠ .ok inv := by
  have h : extractTextInventoryE envBoom [slideBoom] false = .error "pil fail" := by
    unfold extractTextInventoryE
    rw [show ([slideBoom] : List PSlide).enum = [(0, slideBoom)] from rfl]
    rw [List.foldlM_cons]
    have hstep : extractStepE envBoom false [] (0, slideBoom) = .error "pil fail" := by
      unfold extractStepE
      dsimp only
      rw [show (slideBoom.shapes.flatMap (fun sh =>
        collect_shapes_with_absolute_positions sh 0 0)) =
          [⟨shBoom, 0, 0⟩, ⟨shW1, 0, 914400⟩] from evB_collect]
      rw [if_neg (by decide)]
      rw [evB_mapM]
      rfl
    rw [hstep]
    rfl
  refine ⟨h, ?_⟩
  intro inv hinv
  rw [h] at hinv
  cases hinv

/-- C1 witness: the propagation theorem applied to the concrete fallible
environment and two-shape slide. -/
theorem c1_witness :
    extractTextInventoryE envBoom [slideBoom] true = .error "pil fail" :=
  c1_exception_aborts_extraction envBoom slideBoom true [] [⟨shW1, 0, 914400⟩]
    ⟨shBoom, 0, 0⟩ "pil fail" evB_collect
    (fun _ hw => absurd hw (List.not_mem_nil _)) evB_mkE

theorem calculate_overlap_fst (s1 s2 : ShapeData) :
    (calculate_overlap (rectOf s1) (rectOf s2)).1 = true ↔
      interW s1 s2 > 1/20 ∧ interH s1 s2 > 1/20 := by
  unfold calculate_overlap rectOf interW interH
  dsimp only
  by_cases h : min (s1.left + s1.width) (s2.left + s2.width) - max s1.left s2.left > 1/20 ∧
      min (s1.top + s1.height) (s2.top + s2.height) - max s1.top s2.top > 1/20
  · rw [if_pos h]
    simpa using h
  · rw [if_neg h]
    simpa using h

theorem calculate_overlap_snd (s1 s2 : ShapeData)
    (h : (calculate_overlap (rectOf s1) (rectOf s2)).1 = true) :
    (calculate_overlap (rectOf s1) (rectOf s2)).2 =
      round2 (interW s1 s2 * interH s1 s2) := by
  unfold calculate_overlap rectOf interW interH at *
  dsimp only at *
  by_cases hc : min (s1.left + s1.width) (s2.left + s2.width) - max s1.left s2.left > 1/20 ∧
      min (s1.top + s1.height) (s2.top + s2.height) - max s1.top s2.top > 1/20
  · rw [if_pos hc]
  · rw [if_neg hc] at h
    cases h

theorem calculate_overlap_comm (s1 s2 : ShapeData) :
    calculate_overlap (rectOf s1) (rectOf s2) = calculate_overlap (rectOf s2) (rectOf s1) := by
  unfold calculate_overlap rectOf
  dsimp only
  rw [min_comm, max_comm, min_comm (s1.top + s1.height), max_comm s1.top]

theorem rectOf_setOv (sd : ShapeData) (m : List (String × ℚ)) :
    rectOf (setOv sd m) = rectOf sd := rfl

theorem shape_id_setOv (sd : ShapeData) (m : List (String × ℚ)) :
    (setOv sd m).shape_id = sd.shape_id := rfl

theorem ov_setOv (sd : ShapeData) (m : List (String × ℚ)) :
    (setOv sd m).overlapping_shapes = m := rfl

theorem setOv_setOv (sd : ShapeData) (m m2 : List (String × ℚ)) :
    setOv (setOv sd m) m2 = setOv sd m2 := rfl

theorem stateOf_getElem? (l : List ShapeData) (done : List (ℕ × ℕ)) (k : ℕ) :
    (stateOf l done)[k]? =
      (l[k]?).map (fun sd => setOv sd (entriesFor l k done)) := by
  unfold stateOf
  rw [List.getElem?_map, List.getElem?_enum]
  cases l[k]? with
  | none => rfl
  | some sd => rfl

theorem mem_pairList (n a b : ℕ) : (a, b) ∈ pairList n ↔ a < b ∧ b < n := by
  unfold pairList
  rw [List.mem_flatMap]
  constructor
  · rintro ⟨i, hi, hmem⟩
    rw [List.mem_map] at hmem
    obtain ⟨j, hj, hje⟩ := hmem
    obtain ⟨rfl, rfl⟩ : i = a ∧ j = b := by
      constructor <;> [exact (Prod.mk.injEq _ _ _ _ ▸ hje).1; exact (Prod.mk.injEq _ _ _ _ ▸ hje).2]
    rw [List.mem_range] at hi
    rw [List.mem_range'] at hj
    obtain ⟨t, ht, hte⟩ := hj
    omega
  · rintro ⟨hab, hbn⟩
    refine ⟨a, List.mem_range.mpr (by omega), List.mem_map.mpr ⟨b, ?_, rfl⟩⟩
    rw [List.mem_range']
    exact ⟨b - (a + 1), by omega, by omega⟩

theorem pairList_valid (n : ℕ) : ∀ p ∈ pairList n, p.1 < p.2 ∧ p.2 < n := by
  intro p hp
  cases p with
  | mk a b => exact (mem_pairList n a b).mp hp

theorem pairList_nodup (n : ℕ) : (pairList n).Nodup := by
  unfold pairList
  have haux : ∀ (is : List ℕ), is.Nodup →
      ((is.flatMap (fun i => (List.range' (i + 1) (n - (i + 1))).map
        (fun j => (i, j))))).Nodup := by
    intro is
    induction is with
    | nil => intro _; exact List.nodup_nil
    | cons a rest ih =>
      intro hnd
      rw [List.flatMap_cons]
      have hnd2 := List.nodup_cons.mp hnd
      refine List.Nodup.append ?_ (ih hnd2.2) ?_
      · exact List.Nodup.map (fun x y hxy => (Prod.mk.injEq _ _ _ _ ▸ hxy).2)
          (List.nodup_range' _ _)
      · intro p hp1 hp2
        rw [List.mem_map] at hp1
        obtain ⟨j, _, hje⟩ := hp1
        rw [List.mem_flatMap] at hp2
        obtain ⟨i2, hi2, hp2m⟩ := hp2
        rw [List.mem_map] at hp2m
        obtain ⟨j2, _, hj2e⟩ := hp2m
        have h1 : p.1 = a := by rw [← hje]
        have h2 : p.1 = i2 := by rw [← hj2e]
        exact hnd2.1 (h1 ▸ h2 ▸ hi2)
  exact haux (List.range n) (List.nodup_range n)

/-- `detect_overlaps` as a single fold over the ordered pair list. -/
theorem detect_overlaps_eq_foldl_pairList (l : List ShapeData) :
    detect_overlaps l =
      (pairList l.length).foldl (fun acc p => overlapStep acc p.1 p.2) l := by
  unfold detect_overlaps pairList
  have hflat : ∀ (is : List ℕ) (acc : List ShapeData),
      (is.flatMap (fun i => (List.range' (i + 1) (l.length - (i + 1))).map
        (fun j => (i, j)))).foldl (fun acc2 p => overlapStep acc2 p.1 p.2) acc =
      is.foldl (fun acc2 i => (List.range' (i + 1) (l.length - (i + 1))).foldl
        (fun acc3 j => overlapStep acc3 i j) acc2) acc := by
    intro is
    induction is with
    | nil => intro acc; rfl
    | cons a rest ih =>
      intro acc
      rw [List.flatMap_cons, List.foldl_append, List.foldl_cons, ih, List.foldl_map]
  exact (hflat (List.range l.length) l).symm

theorem lookup_eq_none_of_keys (m : List (String × ℚ)) (k : String)
    (h : ∀ e ∈ m, e.1 ≠ k) : m.lookup k = none := by
  induction m with
  | nil => rfl
  | cons e m ih =>
    cases e with
    | mk ek ev =>
      have hne : ek ≠ k := h (ek, ev) (List.mem_cons_self _ _)
      rw [List.lookup_cons]
      have hbe : (k == ek) = false := beq_eq_false_iff_ne.mpr (fun hh => hne hh.symm)
      rw [hbe]
      exact ih (fun e2 he2 => h e2 (List.mem_cons_of_mem _ he2))

theorem dictSet_eq_append (m : List (String × ℚ)) (k : String) (v : ℚ)
    (h : ∀ e ∈ m, e.1 ≠ k) : dictSet m k v = m ++ [(k, v)] := by
  unfold dictSet
  rw [lookup_eq_none_of_keys m k h]
  rfl

theorem shape_id_inj (l : List ShapeData) (hids : (l.map ShapeData.shape_id).Nodup)
    (a b : ℕ) (ha : a < l.length) (hb : b < l.length)
    (h : (l.get ⟨a, ha⟩).shape_id = (l.get ⟨b, hb⟩).shape_id) : a = b := by
  have hinj := @List.Nodup.getElem_inj_iff _ _ hids a (by simpa using ha) b
    (by simpa using hb)
  apply hinj.mp
  rw [List.getElem_map, List.getElem_map]
  exact h

theorem overlapStep_eq (shapes : List ShapeData) (i j : ℕ) (s1 s2 : ShapeData)
    (h1 : shapes[i]? = some s1) (h2 : shapes[j]? = some s2) :
    overlapStep shapes i j =
      if (calculate_overlap (rectOf s1) (rectOf s2)).1 then
        (shapes.set i (overlapUpd s1 s2.shape_id
            (calculate_overlap (rectOf s1) (rectOf s2)).2)).set j
          (overlapUpd s2 s1.shape_id (calculate_overlap (rectOf s1) (rectOf s2)).2)
      else shapes := by
  unfold overlapStep overlapUpd
  rw [h1, h2]
  rfl

/-- The entry a processed pair contributes to an uninvolved index. -/
theorem entryFor_not_involved (l : List ShapeData) (k : ℕ) (p : ℕ × ℕ)
    (h1 : p.1 ≠ k) (h2 : p.2 ≠ k) : entryFor l k p = none := by
  unfold entryFor
  cases l[p.1]? with
  | none => rfl
  | some s1 =>
    cases l[p.2]? with
    | none => rfl
    | some s2 =>
      dsimp only
      by_cases hov : (calculate_overlap (rectOf s1) (rectOf s2)).1 = true
      · rw [if_pos hov, if_neg h1, if_neg h2]
      · rw [if_neg hov]

/-- No key of the dict built from `done` is the id of an index that is not
a `done`-partner of `k`. -/
theorem entriesFor_keys_ne (l : List ShapeData) (hids : (l.map ShapeData.shape_id).Nodup)
    (done : List (ℕ × ℕ)) (hdone : ∀ q ∈ done, q.1 < q.2 ∧ q.2 < l.length)
    (k t : ℕ) (hkn : k < l.length) (htn : t < l.length)
    (hnot : ∀ q ∈ done, ¬((q.1 = k ∧ q.2 = t) ∨ (q.1 = t ∧ q.2 = k))) :
    ∀ e ∈ entriesFor l k done, e.1 ≠ (l.get ⟨t, htn⟩).shape_id := by
  intro e he
  unfold entriesFor at he
  rw [List.mem_filterMap] at he
  obtain ⟨p, hp, hpe⟩ := he
  obtain ⟨hpo, hpn⟩ := hdone p hp
  have hp1n : p.1 < l.length := by omega
  have hl1 : l[p.1]? = some (l.get ⟨p.1, hp1n⟩) := List.getElem?_eq_some.mpr ⟨hp1n, rfl⟩
  have hl2 : l[p.2]? = some (l.get ⟨p.2, hpn⟩) := List.getElem?_eq_some.mpr ⟨hpn, rfl⟩
  unfold entryFor at hpe
  rw [hl1, hl2] at hpe
  dsimp only at hpe
  by_cases hov : (calculate_overlap (rectOf (l.get ⟨p.1, hp1n⟩)) (rectOf (l.get ⟨p.2, hpn⟩))).1 = true
  · rw [if_pos hov] at hpe
    by_cases hq1 : p.1 = k
    · rw [if_pos hq1] at hpe
      have he1 : e.1 = (l.get ⟨p.2, hpn⟩).shape_id := by
        rw [← Option.some.inj hpe]
      rw [he1]
      intro hcontra
      have hpt : p.2 = t := shape_id_inj l hids p.2 t hpn htn hcontra
      exact hnot p hp (Or.inl ⟨hq1, hpt⟩)
    · rw [if_neg hq1] at hpe
      by_cases hq2 : p.2 = k
      · rw [if_pos hq2] at hpe
        have he1 : e.1 = (l.get ⟨p.1, hp1n⟩).shape_id := by
          rw [← Option.some.inj hpe]
        rw [he1]
        intro hcontra
        have hpt : p.1 = t := shape_id_inj l hids p.1 t hp1n htn hcontra
        exact hnot p hp (Or.inr ⟨hpt, hq2⟩)
      · rw [if_neg hq2] at hpe
        cases hpe
  · rw [if_neg hov] at hpe
    cases hpe

theorem entriesFor_append_single (l : List ShapeData) (k : ℕ)
    (done : List (ℕ × ℕ)) (p : ℕ × ℕ) :
    entriesFor l k (done ++ [p]) = entriesFor l k done ++ (entryFor l k p).toList := by
  unfold entriesFor
  rw [List.filterMap_append]
  cases h : entryFor l k p with
  | none => simp [h]
  | some e => simp [h]

/-- Processing one fresh ordered pair advances the characterized state by
exactly that pair. -/
theorem overlapStep_stateOf (l : List ShapeData) (done : List (ℕ × ℕ)) (i j : ℕ)
    (hids : (l.map ShapeData.shape_id).Nodup)
    (hij : i < j) (hjn : j < l.length)
    (hdone : ∀ q ∈ done, q.1 < q.2 ∧ q.2 < l.length)
    (hnew : (i, j) ∉ done) :
    overlapStep (stateOf l done) i j = stateOf l (done ++ [(i, j)]) := by
  have hin : i < l.length := lt_trans hij hjn
  have hli : l[i]? = some (l.get ⟨i, hin⟩) := List.getElem?_eq_some.mpr ⟨hin, rfl⟩
  have hlj : l[j]? = some (l.get ⟨j, hjn⟩) := List.getElem?_eq_some.mpr ⟨hjn, rfl⟩
  have hsi : (stateOf l done)[i]? = some (setOv (l.get ⟨i, hin⟩) (entriesFor l i done)) := by
    rw [stateOf_getElem?, hli]
    rfl
  have hsj : (stateOf l done)[j]? = some (setOv (l.get ⟨j, hjn⟩) (entriesFor l j done)) := by
    rw [stateOf_getElem?, hlj]
    rfl
  rw [overlapStep_eq (stateOf l done) i j _ _ hsi hsj]
  rw [rectOf_setOv, rectOf_setOv]
  by_cases hov : (calculate_overlap (rectOf (l.get ⟨i, hin⟩)) (rectOf (l.get ⟨j, hjn⟩))).1 = true
  case neg =>
    rw [if_neg hov]
    unfold stateOf
    apply List.map_congr_left
    intro q _
    rw [entriesFor_append_single]
    have hnone : entryFor l q.1 (i, j) = none := by
      unfold entryFor
      rw [hli, hlj]
      dsimp only
      rw [if_neg hov]
    rw [hnone]
    simp
  case pos =>
    rw [if_pos hov]
    unfold overlapUpd
    rw [shape_id_setOv, shape_id_setOv, ov_setOv, ov_setOv, setOv_setOv, setOv_setOv]
    have hkey_i : ∀ e ∈ entriesFor l i done, e.1 ≠ (l.get ⟨j, hjn⟩).shape_id := by
      apply entriesFor_keys_ne l hids done hdone i j hin hjn
      intro q hq hcon
      rcases hcon with ⟨hq1, hq2⟩ | ⟨hq1, hq2⟩
      · apply hnew
        have hqe : q = (i, j) := Prod.ext hq1 hq2
        rw [← hqe]
        exact hq
      · obtain ⟨hqo, _⟩ := hdone q hq
        omega
    have hkey_j : ∀ e ∈ entriesFor l j done, e.1 ≠ (l.get ⟨i, hin⟩).shape_id := by
      apply entriesFor_keys_ne l hids done hdone j i hjn hin
      intro q hq hcon
      rcases hcon with ⟨hq1, hq2⟩ | ⟨hq1, hq2⟩
      · obtain ⟨hqo, _⟩ := hdone q hq
        omega
      · apply hnew
        have hqe : q = (i, j) := Prod.ext hq1 hq2
        rw [← hqe]
        exact hq
    rw [dictSet_eq_append _ _ _ hkey_i, dictSet_eq_append _ _ _ hkey_j]
    apply List.ext_getElem?
    intro m
    have hlen0 : (stateOf l done).length = l.length := by
      unfold stateOf
      rw [List.length_map, List.enum_length]
    rcases eq_or_ne m j with hmj | hmj
    · rw [hmj]
      rw [List.getElem?_set_self (by rw [List.length_set, hlen0]; exact hjn)]
      rw [stateOf_getElem?, hlj]
      have hentry : entryFor l j (i, j) = some ((l.get ⟨i, hin⟩).shape_id,
          (calculate_overlap (rectOf (l.get ⟨i, hin⟩)) (rectOf (l.get ⟨j, hjn⟩))).2) := by
        unfold entryFor
        rw [hli, hlj]
        dsimp only
        rw [if_pos hov, if_neg (by omega : ¬(i = j)), if_pos rfl]
      rw [entriesFor_append_single, hentry]
      rfl
    · rw [List.getElem?_set_ne (by omega : j ≠ m)]
      rcases eq_or_ne m i with hmi | hmi
      · rw [hmi]
        rw [List.getElem?_set_self (by rw [hlen0]; exact hin)]
        rw [stateOf_getElem?, hli]
        have hentry : entryFor l i (i, j) = some ((l.get ⟨j, hjn⟩).shape_id,
            (calculate_overlap (rectOf (l.get ⟨i, hin⟩)) (rectOf (l.get ⟨j, hjn⟩))).2) := by
          unfold entryFor
          rw [hli, hlj]
          dsimp only
          rw [if_pos hov, if_pos rfl]
        rw [entriesFor_append_single, hentry]
        rfl
      · rw [List.getElem?_set_ne (by omega : i ≠ m)]
        rw [stateOf_getElem?, stateOf_getElem?]
        rw [entriesFor_append_single,
          entryFor_not_involved l m (i, j) (by omega) (by omega)]
        simp

/-- Folding the detector step over fresh valid pairs accumulates them into
the characterized state. -/
theorem foldl_overlapStep_stateOf (l : List ShapeData)
    (hids : (l.map ShapeData.shape_id).Nodup) :
    ∀ (P done : List (ℕ × ℕ)),
      (∀ q ∈ done ++ P, q.1 < q.2 ∧ q.2 < l.length) → (done ++ P).Nodup →
      P.foldl (fun acc p => overlapStep acc p.1 p.2) (stateOf l done) =
        stateOf l (done ++ P) := by
  intro P
  induction P with
  | nil =>
    intro done _ _
    rw [List.foldl_nil, List.append_nil]
  | cons p rest ih =>
    intro done hvalid hnd
    obtain ⟨a, b⟩ := p
    rw [List.foldl_cons]
    obtain ⟨hab, hbn⟩ := hvalid (a, b) (by simp)
    have hnew : (a, b) ∉ done := by
      rw [List.nodup_append] at hnd
      intro hcon
      exact hnd.2.2 hcon (by simp)
    have hdone : ∀ q ∈ done, q.1 < q.2 ∧ q.2 < l.length := fun q hq =>
      hvalid q (List.mem_append_left _ hq)
    rw [overlapStep_stateOf l done a b hids hab hbn hdone hnew]
    have hassoc : done ++ (a, b) :: rest = (done ++ [(a, b)]) ++ rest := by simp
    rw [hassoc] at hvalid hnd
    rw [ih (done ++ [(a, b)]) hvalid hnd, hassoc]

theorem setOv_self (sd : ShapeData) (h : sd.overlapping_shapes = []) :
    setOv sd [] = sd := by
  unfold setOv
  rw [← h]

/-- On records with empty overlap dicts, the empty-history state is the
input list itself. -/
theorem stateOf_nil (l : List ShapeData)
    (hempty : ∀ sd ∈ l, sd.overlapping_shapes = []) :
    stateOf l [] = l := by
  apply List.ext_getElem?
  intro k
  rw [stateOf_getElem?]
  cases hk : l[k]? with
  | none => rfl
  | some sd =>
    rw [Option.map_some']
    rw [show entriesFor l k [] = [] from rfl,
      setOv_self sd (hempty sd (List.getElem?_mem hk))]

/-- `detect_overlaps` computes exactly the characterized state of the full
ordered pair list. -/
theorem detect_overlaps_eq_stateOf (l : List ShapeData)
    (hids : (l.map ShapeData.shape_id).Nodup)
    (hempty : ∀ sd ∈ l, sd.overlapping_shapes = []) :
    detect_overlaps l = stateOf l (pairList l.length) := by
  have h := foldl_overlapStep_stateOf l hids (pairList l.length) []
    (by simpa using pairList_valid l.length) (by simpa using pairList_nodup l.length)
  rw [stateOf_nil l hempty] at h
  rw [detect_overlaps_eq_foldl_pairList, h, List.nil_append]

/-- What the higher-indexed record's dict holds under the lower-indexed
record's id once every pair has been processed. -/
theorem entriesFor_pairList_right (l : List ShapeData)
    (hids : (l.map ShapeData.shape_id).Nodup)
    (i j : ℕ) (hij : i < j) (hjn : j < l.length) (hin : i < l.length) (v : ℚ) :
    (((l.get ⟨i, hin⟩).shape_id, v) ∈ entriesFor l j (pairList l.length)) ↔
      ((calculate_overlap (rectOf (l.get ⟨i, hin⟩))
          (rectOf (l.get ⟨j, hjn⟩))).1 = true ∧
        v = (calculate_overlap (rectOf (l.get ⟨i, hin⟩))
          (rectOf (l.get ⟨j, hjn⟩))).2) := by
  have hli : l[i]? = some (l.get ⟨i, hin⟩) := List.getElem?_eq_some.mpr ⟨hin, rfl⟩
  have hlj : l[j]? = some (l.get ⟨j, hjn⟩) := List.getElem?_eq_some.mpr ⟨hjn, rfl⟩
  unfold entriesFor
  rw [List.mem_filterMap]
  constructor
  · rintro ⟨p, hp, hpe⟩
    obtain ⟨a, b⟩ := p
    obtain ⟨hab, hbn⟩ := (mem_pairList l.length a b).mp hp
    have han : a < l.length := lt_trans hab hbn
    have hla : l[a]? = some (l.get ⟨a, han⟩) := List.getElem?_eq_some.mpr ⟨han, rfl⟩
    have hlb : l[b]? = some (l.get ⟨b, hbn⟩) := List.getElem?_eq_some.mpr ⟨hbn, rfl⟩
    unfold entryFor at hpe
    rw [hla, hlb] at hpe
    dsimp only at hpe
    by_cases hov : (calculate_overlap (rectOf (l.get ⟨a, han⟩))
        (rectOf (l.get ⟨b, hbn⟩))).1 = true
    · rw [if_pos hov] at hpe
      by_cases haj : a = j
      · rw [if_pos haj] at hpe
        obtain ⟨h1, _⟩ := Prod.mk.inj (Option.some.inj hpe)
        have hbi : b = i := shape_id_inj l hids b i hbn hin h1
        omega
      · rw [if_neg haj] at hpe
        by_cases hbj : b = j
        · rw [if_pos hbj] at hpe
          obtain ⟨h1, h2⟩ := Prod.mk.inj (Option.some.inj hpe)
          have hai : a = i := shape_id_inj l hids a i han hin h1
          have hga : l.get ⟨a, han⟩ = l.get ⟨i, hin⟩ := by subst hai; rfl
          have hgb : l.get ⟨b, hbn⟩ = l.get ⟨j, hjn⟩ := by subst hbj; rfl
          rw [hga, hgb] at hov h2
          exact ⟨hov, h2.symm⟩
        · rw [if_neg hbj] at hpe
          cases hpe
    · rw [if_neg hov] at hpe
      cases hpe
  · rintro ⟨hov, hv⟩
    refine ⟨(i, j), (mem_pairList l.length i j).mpr ⟨hij, hjn⟩, ?_⟩
    unfold entryFor
    rw [hli, hlj]
    dsimp only
    rw [if_pos hov, if_neg (by omega : ¬(i = j)), if_pos rfl, hv]

/-- What the lower-indexed record's dict holds under the higher-indexed
record's id once every pair has been processed. -/
theorem entriesFor_pairList_left (l : List ShapeData)
    (hids : (l.map ShapeData.shape_id).Nodup)
    (i j : ℕ) (hij : i < j) (hjn : j < l.length) (hin : i < l.length) (v : ℚ) :
    (((l.get ⟨j, hjn⟩).shape_id, v) ∈ entriesFor l i (pairList l.length)) ↔
      ((calculate_overlap (rectOf (l.get ⟨i, hin⟩))
          (rectOf (l.get ⟨j, hjn⟩))).1 = true ∧
        v = (calculate_overlap (rectOf (l.get ⟨i, hin⟩))
          (rectOf (l.get ⟨j, hjn⟩))).2) := by
  have hli : l[i]? = some (l.get ⟨i, hin⟩) := List.getElem?_eq_some.mpr ⟨hin, rfl⟩
  have hlj : l[j]? = some (l.get ⟨j, hjn⟩) := List.getElem?_eq_some.mpr ⟨hjn, rfl⟩
  unfold entriesFor
  rw [List.mem_filterMap]
  constructor
  · rintro ⟨p, hp, hpe⟩
    obtain ⟨a, b⟩ := p
    obtain ⟨hab, hbn⟩ := (mem_pairList l.length a b).mp hp
    have han : a < l.length := lt_trans hab hbn
    have hla : l[a]? = some (l.get ⟨a, han⟩) := List.getElem?_eq_some.mpr ⟨han, rfl⟩
    have hlb : l[b]? = some (l.get ⟨b, hbn⟩) := List.getElem?_eq_some.mpr ⟨hbn, rfl⟩
    unfold entryFor at hpe
    rw [hla, hlb] at hpe
    dsimp only at hpe
    by_cases hov : (calculate_overlap (rectOf (l.get ⟨a, han⟩))
        (rectOf (l.get ⟨b, hbn⟩))).1 = true
    · rw [if_pos hov] at hpe
      by_cases hai : a = i
      · rw [if_pos hai] at hpe
        obtain ⟨h1, h2⟩ := Prod.mk.inj (Option.some.inj hpe)
        have hbj : b = j := shape_id_inj l hids b j hbn hjn h1
        have hga : l.get ⟨a, han⟩ = l.get ⟨i, hin⟩ := by subst hai; rfl
        have hgb : l.get ⟨b, hbn⟩ = l.get ⟨j, hjn⟩ := by subst hbj; rfl
        rw [hga, hgb] at hov h2
        exact ⟨hov, h2.symm⟩
      · rw [if_neg hai] at hpe
        by_cases hbi : b = i
        · rw [if_pos hbi] at hpe
          obtain ⟨h1, _⟩ := Prod.mk.inj (Option.some.inj hpe)
          have haj : a = j := shape_id_inj l hids a j han hjn h1
          omega
        · rw [if_neg hbi] at hpe
          cases hpe
    · rw [if_neg hov] at hpe
      cases hpe
  · rintro ⟨hov, hv⟩
    refine ⟨(i, j), (mem_pairList l.length i j).mpr ⟨hij, hjn⟩, ?_⟩
    unfold entryFor
    rw [hli, hlj]
    dsimp only
    rw [if_pos hov, if_pos rfl, hv]

/-- C2: for every pair of records on a slide (distinct ids, dicts initially
empty), `detect_overlaps` leaves geometry and ids intact, records the
rounded intersection area symmetrically — an entry sits in the first
record's dict under the second's id exactly when the matching entry sits
in the second's dict under the first's id — and an entry exists precisely
when both the intersection width and the intersection height of the two
source boxes exceed the 0.05-inch tolerance, in which case its value is
the intersection area rounded to two decimals. -/
theorem c2_overlap_symmetric_tolerance (l : List ShapeData)
    (hids : (l.map ShapeData.shape_id).Nodup)
    (hempty : ∀ sd ∈ l, sd.overlapping_shapes = [])
    (i j : ℕ) (hij : i < j) (hjn : j < l.length) :
    ∃ si sj ri rj : ShapeData,
      l[i]? = some si ∧ l[j]? = some sj ∧
      (detect_overlaps l)[i]? = some ri ∧ (detect_overlaps l)[j]? = some rj ∧
      rectOf ri = rectOf si ∧ rectOf rj = rectOf sj ∧
      ri.shape_id = si.shape_id ∧ rj.shape_id = sj.shape_id ∧
      (∀ v : ℚ, (rj.shape_id, v) ∈ ri.overlapping_shapes ↔
        (ri.shape_id, v) ∈ rj.overlapping_shapes) ∧
      (∀ v : ℚ, (rj.shape_id, v) ∈ ri.overlapping_shapes ↔
        (interW si sj > 1/20 ∧ interH si sj > 1/20 ∧
          v = round2 (interW si sj * interH si sj))) := by
  have hin : i < l.length := lt_trans hij hjn
  have hli : l[i]? = some (l.get ⟨i, hin⟩) := List.getElem?_eq_some.mpr ⟨hin, rfl⟩
  have hlj : l[j]? = some (l.get ⟨j, hjn⟩) := List.getElem?_eq_some.mpr ⟨hjn, rfl⟩
  refine ⟨l.get ⟨i, hin⟩, l.get ⟨j, hjn⟩,
    setOv (l.get ⟨i, hin⟩) (entriesFor l i (pairList l.length)),
    setOv (l.get ⟨j, hjn⟩) (entriesFor l j (pairList l.length)),
    hli, hlj, ?_, ?_, rfl, rfl, rfl, rfl, ?_, ?_⟩
  · rw [detect_overlaps_eq_stateOf l hids hempty, stateOf_getElem?, hli]
    rfl
  · rw [detect_overlaps_eq_stateOf l hids hempty, stateOf_getElem?, hlj]
    rfl
  · intro v
    rw [shape_id_setOv, shape_id_setOv, ov_setOv, ov_setOv]
    rw [entriesFor_pairList_right l hids i j hij hjn hin v,
      entriesFor_pairList_left l hids i j hij hjn hin v]
  · intro v
    rw [shape_id_setOv, ov_setOv]
    rw [entriesFor_pairList_left l hids i j hij hjn hin v]
    constructor
    · rintro ⟨h1, h2⟩
      obtain ⟨hw, hh⟩ := (calculate_overlap_fst _ _).mp h1
      exact ⟨hw, hh, by rw [h2, calculate_overlap_snd _ _ h1]⟩
    · rintro ⟨hw, hh, hv⟩
      have h1 : (calculate_overlap (rectOf (l.get ⟨i, hin⟩))
          (rectOf (l.get ⟨j, hjn⟩))).1 = true :=
        (calculate_overlap_fst _ _).mpr ⟨hw, hh⟩
      exact ⟨h1, by rw [hv, calculate_overlap_snd _ _ h1]⟩

/-- C2 witness: the boxes `(0,0,2,2)` and `(1,1,2,2)` in inches. -/
theorem c2_witness :
    ∃ si sj ri rj : ShapeData,
      [sdOvA, sdOvB][0]? = some si ∧ [sdOvA, sdOvB][1]? = some sj ∧
      (detect_overlaps [sdOvA, sdOvB])[0]? = some ri ∧
      (detect_overlaps [sdOvA, sdOvB])[1]? = some rj ∧
      rectOf ri = rectOf si ∧ rectOf rj = rectOf sj ∧
      ri.shape_id = si.shape_id ∧ rj.shape_id = sj.shape_id ∧
      (∀ v : ℚ, (rj.shape_id, v) ∈ ri.overlapping_shapes ↔
        (ri.shape_id, v) ∈ rj.overlapping_shapes) ∧
      (∀ v : ℚ, (rj.shape_id, v) ∈ ri.overlapping_shapes ↔
        (interW si sj > 1/20 ∧ interH si sj > 1/20 ∧
          v = round2 (interW si sj * interH si sj))) :=
  c2_overlap_symmetric_tolerance [sdOvA, sdOvB]
    (by decide)
    (by
      intro sd h
      rcases List.mem_cons.mp h with h1 | h2
      · rw [h1]
        rfl
      · rcases List.mem_cons.mp h2 with h3 | h4
        · rw [h3]
          rfl
        · cases h4)
    0 1 (by decide) (by decide)

/-- Inversion for `GroupPath` at a leaf node. -/
theorem groupPath_leaf_inv (s : PShape) (path : List (ℤ × ℤ)) (s0 : PShape)
    (h : GroupPath (.leaf s) path s0) : path = [] ∧ s0 = s := by
  cases h
  exact ⟨rfl, rfl⟩

/-- Inversion for `GroupPath` at a group node. -/
theorem groupPath_group_inv (gl gt : ℤ) (children : List SNode)
    (path : List (ℤ × ℤ)) (s : PShape)
    (h : GroupPath (.group gl gt children) path s) :
    ∃ c ∈ children, ∃ p2, path = (gl, gt) :: p2 ∧ GroupPath c p2 s := by
  cases h with
  | group _ _ _ c p2 _ hc h2 => exact ⟨c, hc, p2, rfl, h2⟩

/-- Membership in the resolver's output: exactly the filter-passing leaves,
at the ancestor-offset sums plus their own coordinates. -/
theorem mem_collect_iff : ∀ (node : SNode) (pl pt : ℤ) (s0 : PShape) (al0 at0 : ℤ),
    (⟨s0, al0, at0⟩ : ShapeWithPosition) ∈
        collect_shapes_with_absolute_positions node pl pt ↔
      (is_valid_shape s0 = true ∧ ∃ path : List (ℤ × ℤ),
        GroupPath node path s0 ∧
        al0 = pl + (path.map Prod.fst).sum + (s0.left.getD 0) ∧
        at0 = pt + (path.map Prod.snd).sum + (s0.top.getD 0))
  | .leaf s, pl, pt, s0, al0, at0 => by
    rw [collect_leaf]
    by_cases hv : is_valid_shape s = true
    · rw [if_pos hv, List.mem_singleton]
      constructor
      · intro h
        obtain ⟨h1, h2, h3⟩ := ShapeWithPosition.mk.inj h
        subst h1
        exact ⟨hv, [], GroupPath.leaf s0, by simp [h2], by simp [h3]⟩
      · rintro ⟨hv0, path, hgp, hal, hat⟩
        obtain ⟨hp, hs⟩ := groupPath_leaf_inv s path s0 hgp
        subst hp
        subst hs
        simp only [List.map_nil, List.sum_nil] at hal hat
        rw [ShapeWithPosition.mk.injEq]
        refine ⟨rfl, by omega, by omega⟩
    · rw [if_neg hv]
      constructor
      · intro h
        cases h
      · rintro ⟨hv0, path, hgp, -, -⟩
        obtain ⟨-, hs⟩ := groupPath_leaf_inv s path s0 hgp
        subst hs
        exact absurd hv0 hv
  | .group gl gt children, pl, pt, s0, al0, at0 => by
    rw [collect_group, List.mem_flatten]
    constructor
    · rintro ⟨li, hli, hmem⟩
      rw [List.mem_map] at hli
      obtain ⟨c, hcm, rfl⟩ := hli
      rw [mem_collect_iff c.1 (pl + gl) (pt + gt) s0 al0 at0] at hmem
      obtain ⟨hv, path, hgp, hal, hat⟩ := hmem
      refine ⟨hv, (gl, gt) :: path,
        GroupPath.group gl gt children c.1 path s0 c.2 hgp, ?_, ?_⟩
      · simp only [List.map_cons, List.sum_cons]
        omega
      · simp only [List.map_cons, List.sum_cons]
        omega
    · rintro ⟨hv, path, hgp, hal, hat⟩
      obtain ⟨c, hc, p2, hpe, hgp2⟩ := groupPath_group_inv gl gt children path s0 hgp
      subst hpe
      refine ⟨collect_shapes_with_absolute_positions c (pl + gl) (pt + gt), ?_, ?_⟩
      · rw [List.mem_map]
        exact ⟨⟨c, hc⟩, List.mem_attach _ _, rfl⟩
      · rw [mem_collect_iff c (pl + gl) (pt + gt) s0 al0 at0]
        refine ⟨hv, p2, hgp2, ?_, ?_⟩
        · simp only [List.map_cons, List.sum_cons] at hal
          omega
        · simp only [List.map_cons, List.sum_cons] at hat
          omega
termination_by node _ _ _ _ _ => sizeOf node
decreasing_by
all_goals
  simp only [SNode.group.sizeOf_spec]
  try have h1 := List.sizeOf_lt_of_mem c.2
  try have h2 := List.sizeOf_lt_of_mem hc
  omega

/-- C8: the geometry resolver emits exactly the filter-passing leaf shapes,
each at absolute coordinates equal to the starting offset plus the sum of
the lefts/tops of the group containers traversed to reach it plus the
shape's own left/top; groups themselves are never emitted, and a subtree
with no qualifying leaf emits nothing. -/
theorem c8_geometry_resolver (node : SNode) (pl pt : ℤ) :
    (∀ swp : ShapeWithPosition,
      swp ∈ collect_shapes_with_absolute_positions node pl pt ↔
        (is_valid_shape swp.shape = true ∧ ∃ path : List (ℤ × ℤ),
          GroupPath node path swp.shape ∧
          swp.absolute_left = pl + (path.map Prod.fst).sum + (swp.shape.left.getD 0) ∧
          swp.absolute_top = pt + (path.map Prod.snd).sum + (swp.shape.top.getD 0))) ∧
    (collect_shapes_with_absolute_positions node pl pt = [] ↔
      ∀ (path : List (ℤ × ℤ)) (s : PShape),
        GroupPath node path s → is_valid_shape s = false) := by
  have hmem : ∀ swp : ShapeWithPosition,
      swp ∈ collect_shapes_with_absolute_positions node pl pt ↔
        (is_valid_shape swp.shape = true ∧ ∃ path : List (ℤ × ℤ),
          GroupPath node path swp.shape ∧
          swp.absolute_left = pl + (path.map Prod.fst).sum + (swp.shape.left.getD 0) ∧
          swp.absolute_top = pt + (path.map Prod.snd).sum + (swp.shape.top.getD 0)) := by
    intro swp
    obtain ⟨s0, al0, at0⟩ := swp
    exact mem_collect_iff node pl pt s0 al0 at0
  refine ⟨hmem, ?_⟩
  rw [List.eq_nil_iff_forall_not_mem]
  constructor
  · intro h path s hgp
    by_contra hv
    rw [Bool.not_eq_false] at hv
    exact h ⟨s, pl + (path.map Prod.fst).sum + (s.left.getD 0),
        pt + (path.map Prod.snd).sum + (s.top.getD 0)⟩
      ((hmem _).mpr ⟨hv, path, hgp, rfl, rfl⟩)
  · intro h swp hswp
    obtain ⟨hv, path, hgp, -, -⟩ := (hmem swp).mp hswp
    rw [h path swp.shape hgp] at hv
    exact Bool.false_ne_true hv

end PptxInv
